import Mathlib

/-!
# Stage-logging reconciliation of the API Gateway integration resource

A shallow embedding of
`internal/service/apigateway-integration/apigateway_integration_resource.go`, followed by
`getIamRoleArnFromCallerRoleArn` of `internal/service/sts` and
`removeMacie2OrganizationMembers` of `internal/service/macie2`.

* Go pointers (`*string`, `*bool`, `*AccessLogSettings`, ...) are `Option`s; dereferencing a
  nil pointer, a failed single-value type assertion and an out-of-range index are run-time
  panics and are modelled by `Except Panic`.
* The AWS side (the stage-configuration API and the identity API) is an explicit `World`
  that is threaded through every call. Each SDK call appends itself to `World.calls`, so the
  sequence of requests a function issues can be observed. What a stage listing returns is
  decided by `World.lists` from the requests sent so far, so two listings of one REST API
  may differ.
* `schema.ResourceData` is a record; `d.Get` reads a field and `d.Set` replaces it.
-/

namespace ApiGatewayIntegration

/-! ## Go runtime: values, `fmt.Sprintf`, `strings.Split`, maps -/

deriving instance DecidableEq for Except

/-- Run-time panics of the Go code. -/
inductive Panic where
  | nilDereference
  | typeAssertion
  | indexOutOfRange
  deriving DecidableEq, Repr

/-- The operands handed to `fmt.Sprintf` in this file: strings and booleans. -/
inductive GoValue where
  | str (s : String)
  | bool (b : Bool)
  deriving DecidableEq, Repr

/-- Rendering of an operand under the verb `%v`. -/
def formatValue : GoValue → String
  | .str s => s
  | .bool true => "true"
  | .bool false => "false"

/-- Go type name of an operand, as printed by the `%!(EXTRA ...)` diagnostic. -/
def typeName : GoValue → String
  | .str _ => "string"
  | .bool _ => "bool"

/-- The diagnostic `fmt` appends when operands are left over. -/
def extraOperands (args : List GoValue) : List Char :=
  ("%!(EXTRA " ++ ", ".intercalate (args.map fun a => typeName a ++ "=" ++ formatValue a)
    ++ ")").data

/-- Rendering of an operand under the verb `%s`: a string is printed as it is, a boolean is
reported as a bad operand for the verb. -/
def formatString : GoValue → String
  | .str s => s
  | .bool b => "%!s(bool=" ++ formatValue (.bool b) ++ ")"

/-- Character-level `fmt.Sprintf` for format strings whose only verbs are `%v` and `%s`:
each verb consumes the next operand (or prints `%!v(MISSING)`, `%!s(MISSING)` when none
is left), every other character is copied, left-over operands are reported at the end. -/
def sprintfChars : List Char → List GoValue → List Char
  | [], [] => []
  | [], a :: args => extraOperands (a :: args)
  | [c], args => c :: sprintfChars [] args
  | c :: c' :: rest, args =>
    if c = '%' ∧ c' = 'v' then
      match args with
      | a :: args' => (formatValue a).data ++ sprintfChars rest args'
      | [] => "%!v(MISSING)".data ++ sprintfChars rest []
    else if c = '%' ∧ c' = 's' then
      match args with
      | a :: args' => (formatString a).data ++ sprintfChars rest args'
      | [] => "%!s(MISSING)".data ++ sprintfChars rest []
    else c :: sprintfChars (c' :: rest) args

/-- Model of `fmt.Sprintf` (and of the message of `fmt.Errorf`), restricted to the verbs
`%v` and `%s`. -/
def Sprintf (format : String) (args : List GoValue) : String :=
  ⟨sprintfChars format.data args⟩

/-- Source lines 70-72. -/
def generateLogGroup (accountId region restApiId stageName : String) : String :=
  Sprintf "arn:aws:logs:%v:%v:log-group:API-Gateway-Execution-Logs_%v/%v"
    [.str region, .str accountId, .str restApiId, .str stageName]

/-- Character-level `strings.Split` for a one-character separator: the pieces between
consecutive separators, always at least one piece. -/
def splitChars (sep : Char) : List Char → List (List Char)
  | [] => [[]]
  | c :: cs =>
    if c = sep then [] :: splitChars sep cs
    else
      match splitChars sep cs with
      | piece :: pieces => (c :: piece) :: pieces
      | [] => [[c]]

/-- Model of `strings.Split(s, sep)`; the only call site passes the one-character
separator `"!"`, so the separator is a character here. -/
def Split (s : String) (sep : Char) : List String :=
  (splitChars sep s.data).map String.mk

/-- Dereference of a Go pointer. -/
def deref {α : Type} : Option α → Except Panic α
  | some a => .ok a
  | none => .error .nilDereference

/-- Slice indexing `details[i]`. -/
def index (details : List String) (i : Nat) : Except Panic String :=
  match details.get? i with
  | some x => .ok x
  | none => .error .indexOutOfRange

/-- Single-value type assertion `v.(string)` on a map read: a missing key reads as the nil
interface, on which the assertion panics. -/
def assertString : Option String → Except Panic String
  | some s => .ok s
  | none => .error .typeAssertion

/-- The `rest_api_states` map (`map[string]interface{}` holding strings). -/
abbrev StateMap := List (String × String)

/-- Map read `m[k]`. -/
def mapGet : StateMap → String → Option String
  | [], _ => none
  | (k', v) :: m, k => if k' = k then some v else mapGet m k

/-- Map delete `delete(m, k)`. -/
def mapDelete : StateMap → String → StateMap
  | [], _ => []
  | (k', v) :: m, k => if k' = k then mapDelete m k else (k', v) :: mapDelete m k

/-- Map write `m[k] = v`. -/
def mapSet (m : StateMap) (k v : String) : StateMap :=
  mapDelete m k ++ [(k, v)]

/-! ## Data model -/

/-- The fields of `apigateway.AccessLogSettings` that the code reads. -/
structure AccessLogSettings where
  Format : Option String
  DestinationArn : Option String
  deriving DecidableEq, Repr

/-- The fields of `apigateway.MethodSetting` that the code reads. -/
structure MethodSetting where
  DataTraceEnabled : Option Bool
  LoggingLevel : Option String
  deriving DecidableEq, Repr

/-- The fields of `apigateway.Stage` that the code reads. -/
structure Stage where
  StageName : Option String
  MethodSettings : List (String × MethodSetting)
  AccessLogSettings : Option AccessLogSettings
  deriving DecidableEq, Repr

/-- Source lines 15-20. -/
structure StageState where
  dataTraceEnabled : Bool
  loggingLevel : String
  accessLogsFormat : String
  accessLogsDestinationArn : String
  deriving DecidableEq, Repr

/-- The type `apigateway.PatchOperation`; `Value` is nil for the `remove` operation. -/
structure PatchOperation where
  Op : String
  Path : String
  Value : Option String
  deriving DecidableEq, Repr

/-- A request sent to AWS. -/
inductive ApiCall where
  | GetCallerIdentity
  | GetStages (restApiId : String)
  | UpdateStage (restApiId : String) (stageName : Option String)
      (patchOperations : List PatchOperation)
  deriving DecidableEq, Repr

/-- The AWS side as seen through `meta.(*conns.AWSClient)`: the caller's account (nil when
`GetCallerIdentity` fails), the session's region, the live REST APIs with their stages,
the answer of the service to a stage listing given the requests sent before it and the
live REST APIs (`none`: the listing fails; two listings of one REST API need not agree,
stages come and go and requests fail), the service's patch semantics (`none`: the patch
is rejected) and the log of the requests sent so far, each with the error it returned
(`none`: success). -/
structure World where
  account : Option String
  region : Option String
  apis : List (String × List Stage)
  lists : List (ApiCall × Option String) → List (String × List Stage) → String →
    Option (List Stage)
  patch : Stage → List PatchOperation → Option Stage
  calls : List (ApiCall × Option String)

/-- The fields of `schema.ResourceData`: the resource id, the old and new `rest_api_ids` (as returned by
`Set.List()`), and `rest_api_states`. -/
structure ResourceData where
  id : String
  old_rest_api_ids : List String
  rest_api_ids : List String
  rest_api_states : StateMap
  deriving DecidableEq, Repr

/-! ## The SDK calls -/

/-- The call `stsConn.GetCallerIdentity`: the output's `Account` and the error. -/
def GetCallerIdentity (w : World) : World × Option String × Option String :=
  match w.account with
  | some a => ({ w with calls := w.calls ++ [(ApiCall.GetCallerIdentity, none)] }, some a, none)
  | none =>
    ({ w with calls := w.calls ++ [(ApiCall.GetCallerIdentity, some "RequestError")] },
      none, some "RequestError")

/-- The call `conn.GetStages`: the output's `Item` and the error. A failed listing is an
error, with an empty output. -/
def GetStages (w : World) (restApiId : String) : World × List Stage × Option String :=
  match w.lists w.calls w.apis restApiId with
  | some stages =>
    ({ w with calls := w.calls ++ [(ApiCall.GetStages restApiId, none)] }, stages, none)
  | none =>
    ({ w with calls := w.calls ++ [(ApiCall.GetStages restApiId, some "NotFoundException")] },
      [], some "NotFoundException")

/-- Replace the stage called `name` in a stage list. -/
def replaceStage (name : String) (s' : Stage) : List Stage → List Stage
  | [] => []
  | s :: rest =>
    if s.StageName = some name then s' :: rest else s :: replaceStage name s' rest

/-- The call `conn.UpdateStage`: the error. The request is logged; when the stage exists and the
service accepts the patch the stage is replaced by the patched one, otherwise the world is
unchanged and an error is returned. -/
def UpdateStage (w : World) (restApiId : String) (stageName : Option String)
    (patchOperations : List PatchOperation) : World × Option String :=
  let request := ApiCall.UpdateStage restApiId stageName patchOperations
  let failed (e : String) : World × Option String :=
    ({ w with calls := w.calls ++ [(request, some e)] }, some e)
  match stageName, w.apis.lookup restApiId with
  | some name, some stages =>
    match stages.find? fun s => s.StageName == some name with
    | some s =>
      match w.patch s patchOperations with
      | some s' =>
        ({ w with
            apis := w.apis.map fun e =>
              if e.1 = restApiId then (e.1, replaceStage name s' e.2) else e
            calls := w.calls ++ [(request, none)] }, none)
      | none => failed "BadRequestException"
    | none => failed "NotFoundException"
  | _, _ => failed "NotFoundException"

/-! ## The resource -/

/-- Source lines 94-99. -/
def getAccessLogsSettings (settings : Option AccessLogSettings) :
    Except Panic (String × String) :=
  match settings with
  | none => .ok ("NO", "NO")
  | some s => do
    let format ← deref s.Format
    let destinationArn ← deref s.DestinationArn
    pure (format, destinationArn)

/-- Source lines 74-82. -/
def extractStageState (stage : Stage) : Except Panic StageState := do
  let (format, destinationArn) ← getAccessLogsSettings stage.AccessLogSettings
  let m1 ← deref (stage.MethodSettings.lookup "*/*")
  let dataTraceEnabled ← deref m1.DataTraceEnabled
  let m2 ← deref (stage.MethodSettings.lookup "*/*")
  let loggingLevel ← deref m2.LoggingLevel
  pure
    { dataTraceEnabled := dataTraceEnabled
      loggingLevel := loggingLevel
      accessLogsFormat := format
      accessLogsDestinationArn := destinationArn }

/-- The loop of `saveStagesStates`, source lines 57-66. -/
def saveStagesLoop (restApiId : String) : List Stage → StateMap → Except Panic StateMap
  | [], allStates => .ok allStates
  | stage :: rest, allStates => do
    let stageName ← deref stage.StageName
    let identifier := Sprintf "%v-%v" [.str restApiId, .str stageName]
    let state ← extractStageState stage
    saveStagesLoop restApiId rest
      (mapSet allStates identifier
        (Sprintf "%v!%v!%v!%v"
          [.bool state.dataTraceEnabled, .str state.loggingLevel,
            .str state.accessLogsFormat, .str state.accessLogsDestinationArn]))

/-- Source lines 51-68. The error of `GetStages` is discarded. -/
def saveStagesStates (w : World) (d : ResourceData) (restApiId : String) :
    Except Panic (World × StateMap) := do
  let allStates := d.rest_api_states
  let (w1, res, _) := GetStages w restApiId
  let allStates ← saveStagesLoop restApiId res allStates
  pure (w1, allStates)

/-- The access-log format string of source line 130. -/
def accessLogFormat : String :=
  "\x7b\"requestId\":\"$context.requestId\",\"ip\":\"$context.identity.sourceIp\",\"caller\":\"$context.identity.caller\",\"user\":\"$context.identity.user\",\"requestTime\":\"$context.requestTime\",\"httpMethod\":\"$context.httpMethod\",\"path\":\"$context.path\",\"status\":\"$context.status\",\"protocol\":\"$context.protocol\",\"responseLength\":\"$context.responseLength\",\"domainName\":\"$context.domainName\",\"accountId\":\"$context.accountId\"\x7d"

/-- The loop of `configureRestApi`, source lines 112-139. The result of `UpdateStage` is
discarded. -/
def configureLoop (accountId region : Option String) (restApiId : String) :
    List Stage → World → Except Panic World
  | [], w => .ok w
  | stage :: rest, w => do
    let a ← deref accountId
    let r ← deref region
    let stageName ← deref stage.StageName
    let (w1, _) := UpdateStage w restApiId stage.StageName
      [ { Op := "replace", Path := "/*/*/logging/loglevel", Value := some "INFO" },
        { Op := "replace", Path := "/*/*/logging/dataTrace", Value := some "true" },
        { Op := "replace", Path := "/accessLogSettings/format", Value := some accessLogFormat },
        { Op := "replace", Path := "/accessLogSettings/destinationArn",
          Value := some (generateLogGroup a r restApiId stageName) } ]
    configureLoop accountId region restApiId rest w1

/-- Source lines 101-141. The third component is the returned `error` (nil is `none`). -/
def configureRestApi (w : World) (d : ResourceData) (restApiId : String) :
    Except Panic (World × ResourceData × Option String) := do
  let (w1, res, _) := GetCallerIdentity w
  let accountId := res
  let region := w.region
  let (w2, allStates) ← saveStagesStates w1 d restApiId
  let d1 := { d with rest_api_states := allStates }
  let (w3, apiRes, _) := GetStages w2 restApiId
  let w4 ← configureLoop accountId region restApiId apiRes w3
  pure (w4, d1, none)

/-- The loop of `deconfigureRestApi`, source lines 164-209. -/
def deconfigureLoop (restApiId : String) :
    List Stage → World → StateMap → Except Panic (World × StateMap)
  | [], w, allStates => .ok (w, allStates)
  | stage :: rest, w, allStates => do
    let stageName ← deref stage.StageName
    let idenifier := Sprintf "%v-%v" [.str restApiId, .str stageName]
    let entry ← assertString (mapGet allStates idenifier)
    let details := Split entry '!'
    let traceEnabled ← index details 0
    let loggingLevel ← index details 1
    let accessLogsFormat ← index details 2
    let accessLogsDestinationArn ← index details 3
    let patchOperation : List PatchOperation :=
      [ { Op := "replace", Path := "/*/*/logging/loglevel", Value := some loggingLevel },
        { Op := "replace", Path := "/*/*/logging/dataTrace", Value := some traceEnabled } ]
    let patchOperation :=
      if accessLogsFormat = "N0" then
        patchOperation ++ [ { Op := "remove", Path := "/accessLogSettings", Value := none } ]
      else
        patchOperation ++
          [ { Op := "replace", Path := "/accessLogSettings/destinationArn",
              Value := some accessLogsDestinationArn },
            { Op := "replace", Path := "/accessLogSettings/format",
              Value := some accessLogsFormat } ]
    let (w1, _) := UpdateStage w restApiId stage.StageName patchOperation
    deconfigureLoop restApiId rest w1 (mapDelete allStates idenifier)

/-- Source lines 159-211. The error of `GetStages` is discarded. -/
def deconfigureRestApi (w : World) (d : ResourceData) (restApiId : String) :
    Except Panic (World × ResourceData) := do
  let allStates := d.rest_api_states
  let (w1, apiRes, _) := GetStages w restApiId
  let (w2, allStates) ← deconfigureLoop restApiId apiRes w1 allStates
  pure (w2, { d with rest_api_states := allStates })

/-- The loop `for _, restApiId := range ... { configureRestApi(meta, d, restApiId) }` of
source lines 87-89 and 152-154; the returned error is discarded. -/
def configureAll : List String → World → ResourceData → Except Panic (World × ResourceData)
  | [], w, d => .ok (w, d)
  | restApiId :: rest, w, d => do
    let (w1, d1, _) ← configureRestApi w d restApiId
    configureAll rest w1 d1

/-- The loop `for ... { deconfigureRestApi(conn, d, restApiId) }` of source lines 147-149
and 216-218. -/
def deconfigureAll : List String → World → ResourceData → Except Panic (World × ResourceData)
  | [], w, d => .ok (w, d)
  | restApiId :: rest, w, d => do
    let (w1, d1) ← deconfigureRestApi w d restApiId
    deconfigureAll rest w1 d1

/-- Source lines 84-92; `newId` is the value of `uuid.New().String()`. -/
def resourceApiGatewayIntegrationCreate (newId : String) (w : World) (d : ResourceData) :
    Except Panic (World × ResourceData × Option String) := do
  let restApiIds := d.rest_api_ids
  let (w1, d1) ← configureAll restApiIds w d
  pure (w1, { d1 with id := newId }, none)

/-- Source lines 143-157; `d.GetChange("rest_api_ids")` is
`(d.old_rest_api_ids, d.rest_api_ids)`. -/
def resourceApiGatewayIntegrationUpdate (w : World) (d : ResourceData) :
    Except Panic (World × ResourceData × Option String) := do
  let old := d.old_rest_api_ids
  let new := d.rest_api_ids
  let (w1, d1) ← (if old.length > 0 then deconfigureAll old w d else pure (w, d))
  let (w2, d2) ← (if new.length > 0 then configureAll new w1 d1 else pure (w1, d1))
  pure (w2, d2, none)

/-- Source lines 213-221. The loop ranges over the keys of `rest_api_states` (here in
list order) and hands each key to `deconfigureRestApi` as the REST API id. -/
def resourceApiGatewayIntegrationDelete (w : World) (d : ResourceData) :
    Except Panic (World × ResourceData × Option String) := do
  let allStates := d.rest_api_states
  let (w1, d1) ← deconfigureAll (allStates.map Prod.fst) w d
  pure (w1, { d1 with id := "" }, none)

/-! ## Observations on maps and request logs -/

/-- The entries a map holds under a key. -/
def entriesAt : StateMap → String → StateMap
  | [], _ => []
  | (k', v) :: m, k => if k' = k then (k', v) :: entriesAt m k else entriesAt m k

/-- Every pointer the snapshot step dereferences on a stage is set: the stage name, the
`*/*` method setting with its trace flag and logging level and, when access-log settings
are present, their format and destination. -/
def Stage.populated (s : Stage) : Bool :=
  s.StageName.isSome
    && (match s.MethodSettings.lookup "*/*" with
        | some m => m.DataTraceEnabled.isSome && m.LoggingLevel.isSome
        | none => false)
    && (match s.AccessLogSettings with
        | some a => a.Format.isSome && a.DestinationArn.isSome
        | none => true)

/-- The snapshot of a stage is restorable from a map: the stage is named and the map holds
under its key a string that splits into at least four fields. -/
def hasSnapshot (m : StateMap) (restApiId : String) (s : Stage) : Bool :=
  match s.StageName with
  | some n =>
    match mapGet m (restApiId ++ "-" ++ n) with
    | some entry => decide (4 ≤ (Split entry '!').length)
    | none => false
  | none => false

/-- Whether a request is an `UpdateStage`. -/
def isUpdateStage : ApiCall → Bool
  | .UpdateStage _ _ _ => true
  | _ => false

/-- The logged requests other than `UpdateStage`, in order. -/
def readRequests (calls : List (ApiCall × Option String)) : List ApiCall :=
  (calls.map Prod.fst).filter fun c => !isUpdateStage c

/-- The logged `UpdateStage` requests, in order: REST API id, stage name and returned
error. -/
def patchAttempts (calls : List (ApiCall × Option String)) :
    List (String × Option String × Option String) :=
  calls.filterMap fun c =>
    match c.1 with
    | .UpdateStage restApiId stageName _ => some (restApiId, stageName, c.2)
    | _ => none

/-- The stage listing that `saveStagesStates` makes inside `configureRestApi` (source
line 53), after `GetCallerIdentity`. -/
def firstListing (w : World) (restApiId : String) : World × List Stage × Option String :=
  GetStages (GetCallerIdentity w).1 restApiId

/-- The stage listing that `configureRestApi` makes itself (source line 109), after the
one of `saveStagesStates`. -/
def secondListing (w : World) (restApiId : String) : World × List Stage × Option String :=
  GetStages (firstListing w restApiId).1 restApiId

/-! ## A reference world

The stage-configuration API is an external service; the resource code reaches it only
through `World.patch`. The definitions below fix one concrete behaviour for it, used to
evaluate the resource on concrete inputs. -/

/-- Update of the `*/*` method setting of a stage, creating it when absent. -/
def setMethodSetting (s : Stage) (f : MethodSetting → MethodSetting) : Stage :=
  match s.MethodSettings.lookup "*/*" with
  | some m =>
    { s with MethodSettings := s.MethodSettings.map fun e => if e.1 = "*/*" then (e.1, f m) else e }
  | none =>
    { s with MethodSettings :=
        s.MethodSettings ++ [("*/*", f { DataTraceEnabled := none, LoggingLevel := none })] }

/-- Update of the access-log settings of a stage, creating them when absent. -/
def setAccessLogSettings (s : Stage) (f : AccessLogSettings → AccessLogSettings) : Stage :=
  let current := s.AccessLogSettings.getD { Format := none, DestinationArn := none }
  { s with AccessLogSettings := some (f current) }

/-- Reference semantics of one patch operation on the five paths the resource uses:
`replace` writes the addressed setting, `remove` of `/accessLogSettings` clears the
access-log settings, anything else is rejected. -/
def applyPatchOperation (s : Stage) (op : PatchOperation) : Option Stage :=
  if op.Op = "replace" ∧ op.Path = "/*/*/logging/loglevel" then
    op.Value.map fun v => setMethodSetting s fun m => { m with LoggingLevel := some v }
  else if op.Op = "replace" ∧ op.Path = "/*/*/logging/dataTrace" then
    op.Value.map fun v => setMethodSetting s fun m => { m with DataTraceEnabled := some (v == "true") }
  else if op.Op = "replace" ∧ op.Path = "/accessLogSettings/format" then
    op.Value.map fun v => setAccessLogSettings s fun a => { a with Format := some v }
  else if op.Op = "replace" ∧ op.Path = "/accessLogSettings/destinationArn" then
    op.Value.map fun v => setAccessLogSettings s fun a => { a with DestinationArn := some v }
  else if op.Op = "remove" ∧ op.Path = "/accessLogSettings" then
    some { s with AccessLogSettings := none }
  else none

/-- Reference semantics of a patch: its operations applied in order. -/
def applyPatchOperations : Stage → List PatchOperation → Option Stage
  | s, [] => some s
  | s, op :: ops => (applyPatchOperation s op).bind fun s' => applyPatchOperations s' ops

/-- A stage with access logging off. -/
def stageDev : Stage :=
  { StageName := some "dev"
    MethodSettings := [("*/*", { DataTraceEnabled := some false, LoggingLevel := some "OFF" })]
    AccessLogSettings := none }

/-- A stage with access-log format `X` and destination `Y`. -/
def stageProd : Stage :=
  { StageName := some "prod"
    MethodSettings := [("*/*", { DataTraceEnabled := some true, LoggingLevel := some "ERROR" })]
    AccessLogSettings := some { Format := some "X", DestinationArn := some "Y" } }

/-- One REST API, `abc123`, with the stages `dev` and `prod`; every listing returns the
live stages of a known REST API and fails for an unknown one. -/
def demoWorld : World :=
  { account := some "111111111111"
    region := some "us-east-1"
    apis := [("abc123", [stageDev, stageProd])]
    lists := fun _ apis restApiId => apis.lookup restApiId
    patch := applyPatchOperations
    calls := [] }

/-- The world `demoWorld` with a service that rejects every patch. -/
def rejectingWorld : World :=
  { demoWorld with patch := fun _ _ => none }

/-- A new resource tracking `abc123`, nothing snapshotted yet. -/
def demoData : ResourceData :=
  { id := "", old_rest_api_ids := [], rest_api_ids := ["abc123"], rest_api_states := [] }

/-- The resource after `abc123` has been applied, with `abc123` kept in `rest_api_ids`. -/
def appliedData : ResourceData :=
  { id := "r-1"
    old_rest_api_ids := ["abc123"]
    rest_api_ids := ["abc123"]
    rest_api_states := [("abc123-dev", "false!OFF!NO!NO"), ("abc123-prod", "true!ERROR!X!Y")] }

/-! ## The caller-identity data source (`internal/service/sts`) -/

/-- Source lines 59-75 of `caller_identity_data_source.go`. The length tests guard every
index, so the defaults of `getD` are never used. -/
def getIamRoleArnFromCallerRoleArn (sessionRole : String) : String :=
  let parts := Split sessionRole '/'
  if parts.length ≠ 3 then sessionRole
  else
    let arnParts := Split (parts.getD 0 "") ':'
    if arnParts.length ≠ 6 then sessionRole
    else
      let accountId := arnParts.getD 4 ""
      let partition := arnParts.getD 1 ""
      let roleName := parts.getD 1 ""
      Sprintf "arn:%s:iam::%s:role/%s" [.str partition, .str accountId, .str roleName]

/-! ## The Macie2 organization members (`internal/service/macie2`) -/

/-- Character-level `strings.Contains`: some suffix of the text starts with `substr`. -/
def containsChars (substr : List Char) : List Char → Bool
  | [] => substr.isEmpty
  | c :: cs => substr.isPrefixOf (c :: cs) || containsChars substr cs

/-- Model of `strings.Contains(s, substr)`. -/
def Contains (s substr : String) : Bool :=
  containsChars substr.data s.data

/-- A request sent to Macie2. -/
inductive MacieCall where
  | DisassociateMember (id : String)
  | DeleteMember (id : String)
  deriving DecidableEq, Repr

/-- The Macie2 side: how the service answers a request given the requests sent before it
(`none`: success, `some e`: an error whose `Error()` is `e`), the log of the requests
sent so far, and the lines written with `log.Printf`. -/
structure Macie2 where
  respond : List MacieCall → MacieCall → Option String
  calls : List MacieCall
  logs : List String

/-- The call `conn.DisassociateMember`: the error. -/
def DisassociateMember (conn : Macie2) (id : String) : Macie2 × Option String :=
  ({ conn with calls := conn.calls ++ [MacieCall.DisassociateMember id] },
    conn.respond conn.calls (MacieCall.DisassociateMember id))

/-- The call `conn.DeleteMember`: the error. -/
def DeleteMember (conn : Macie2) (id : String) : Macie2 × Option String :=
  ({ conn with calls := conn.calls ++ [MacieCall.DeleteMember id] },
    conn.respond conn.calls (MacieCall.DeleteMember id))

/-- The call `log.Printf`. -/
def logPrintf (conn : Macie2) (format : String) (args : List GoValue) : Macie2 :=
  { conn with logs := conn.logs ++ [Sprintf format args] }

/-- Source lines 135-141 of `resource_macie2_organization_settings.go`; `aws.String`
never yields nil, so the ids are kept as strings. -/
def makeMacie2AccountIDs : List String → List String
  | [] => []
  | account :: accounts => account :: makeMacie2AccountIDs accounts

/-- The loop of `removeMacie2OrganizationMembers`, source lines 164-187, over
`accountIDs[i]` for `i` ranging over `memberAccounts` (both have the same length). The
result is the returned `error` (nil is `none`). -/
def removeMembersLoop : List String → Macie2 → Macie2 × Option String
  | [], conn => (conn, none)
  | id :: rest, conn =>
    let (c1, err) := DisassociateMember conn id
    match err with
    | some e =>
      (c1, some (Sprintf "error disassociating macie2 administrator account member: %s" [.str e]))
    | none =>
      let (c2, err) := DeleteMember c1 id
      match err with
      | some e =>
        let c3 := logPrintf c2 "[WARN] Error deleting macie2 administrator account member: %s"
          [.str e]
        if Contains e "specified account is not associated with your account" then
          removeMembersLoop rest
            (logPrintf c3
              "[WARN] The specified member account (%s) isn\x27t associated with the delegated administrator account"
              [.str id])
        else
          (c3, some (Sprintf "error removing macie2 administrator account members: %s" [.str e]))
      | none => removeMembersLoop rest c2

/-- Source lines 160-190 of `resource_macie2_organization_settings.go`. -/
def removeMacie2OrganizationMembers (conn : Macie2) (memberAccounts : List String) :
    Macie2 × Option String :=
  let accountIDs := makeMacie2AccountIDs memberAccounts
  if memberAccounts.length > 0 then removeMembersLoop accountIDs conn
  else (conn, none)

/-- A Macie2 service in which account `222` is not associated with the administrator
account, deleting account `333` is denied, and every other request succeeds. -/
def demoMacie : Macie2 :=
  { respond := fun _ call =>
      if call = MacieCall.DeleteMember "222" then
        some "ValidationException: The specified account is not associated with your account."
      else if call = MacieCall.DeleteMember "333" then some "AccessDeniedException: denied"
      else none
    calls := []
    logs := [] }

/-- The twelve fields of the access-log format: the JSON key and the `$context` variable
logged under it. -/
def accessLogFields : List (String × String) :=
  [("requestId", "requestId"), ("ip", "identity.sourceIp"), ("caller", "identity.caller"),
    ("user", "identity.user"), ("requestTime", "requestTime"), ("httpMethod", "httpMethod"),
    ("path", "path"), ("status", "status"), ("protocol", "protocol"),
    ("responseLength", "responseLength"), ("domainName", "domainName"),
    ("accountId", "accountId")]

/-- The one-line JSON object that logs each field as a string. -/
def jsonLogFormat (fields : List (String × String)) : String :=
  "\x7b" ++ ",".intercalate (fields.map fun f => "\"" ++ f.1 ++ "\":\"$context." ++ f.2 ++ "\"")
    ++ "\x7d"

/-- The logged `UpdateStage` requests, in order: REST API id, stage name and the value of
the first patch operation (the log level). -/
def patchLevels (calls : List (ApiCall × Option String)) :
    List (String × Option String × Option String) :=
  calls.filterMap fun c =>
    match c.1 with
    | .UpdateStage restApiId stageName ops => some (restApiId, stageName, ops.head?.bind (·.Value))
    | _ => none

/-- The observable effect of restoring one REST API from state `s` to state `s'`: one stage
listing; then for every listed stage, in order, one `UpdateStage` whose patch starts by
setting the log level and the data trace to the second and the first field of that
stage's entry in `s`; in the end no listed stage has an entry and every other key reads
as in `s`. -/
def Restored (restApiId : String) (s s' : World × ResourceData) : Prop :=
  (∃ us, s'.1.calls
        = s.1.calls ++ (ApiCall.GetStages restApiId, (GetStages s.1 restApiId).2.2) :: us
      ∧ List.Forall₂
          (fun c stage => ∃ n entry t l f a rest tail, stage.StageName = some n
            ∧ mapGet s.2.rest_api_states (restApiId ++ "-" ++ n) = some entry
            ∧ Split entry '!' = t :: l :: f :: a :: rest
            ∧ c.1 = ApiCall.UpdateStage restApiId (some n)
                ({ Op := "replace", Path := "/*/*/logging/loglevel", Value := some l }
                  :: { Op := "replace", Path := "/*/*/logging/dataTrace", Value := some t }
                  :: tail))
          us (GetStages s.1 restApiId).2.1)
    ∧ (∀ stage ∈ (GetStages s.1 restApiId).2.1, ∀ n, stage.StageName = some n →
        mapGet s'.2.rest_api_states (restApiId ++ "-" ++ n) = none)
    ∧ ∀ k, (∀ stage ∈ (GetStages s.1 restApiId).2.1, ∀ n, stage.StageName = some n →
        k ≠ restApiId ++ "-" ++ n) →
        mapGet s'.2.rest_api_states k = mapGet s.2.rest_api_states k

/-- The observable effect of applying one REST API from state `s` to state `s'`:
`GetCallerIdentity` and two stage listings; then for every stage of the second listing,
in order, one `UpdateStage` with the four `replace` operations of the verbose
configuration; in the end every stage of the first listing has exactly one entry and
every other key reads as in `s`. -/
def Applied (restApiId : String) (s s' : World × ResourceData) : Prop :=
  (∃ us, s'.1.calls
        = s.1.calls ++
            [(ApiCall.GetCallerIdentity, (GetCallerIdentity s.1).2.2),
              (ApiCall.GetStages restApiId, (firstListing s.1 restApiId).2.2),
              (ApiCall.GetStages restApiId, (secondListing s.1 restApiId).2.2)] ++ us
      ∧ List.Forall₂
          (fun c stage => ∃ a r n, s.1.account = some a ∧ s.1.region = some r
            ∧ stage.StageName = some n
            ∧ c.1 = ApiCall.UpdateStage restApiId (some n)
                [ { Op := "replace", Path := "/*/*/logging/loglevel", Value := some "INFO" },
                  { Op := "replace", Path := "/*/*/logging/dataTrace", Value := some "true" },
                  { Op := "replace", Path := "/accessLogSettings/format",
                    Value := some (jsonLogFormat accessLogFields) },
                  { Op := "replace", Path := "/accessLogSettings/destinationArn",
                    Value := some (generateLogGroup a r restApiId n) } ])
          us (secondListing s.1 restApiId).2.1)
    ∧ (∀ stage ∈ (firstListing s.1 restApiId).2.1, ∀ n, stage.StageName = some n →
        (entriesAt s'.2.rest_api_states (restApiId ++ "-" ++ n)).length = 1)
    ∧ ∀ k, (∀ stage ∈ (firstListing s.1 restApiId).2.1, ∀ n, stage.StageName = some n →
        k ≠ restApiId ++ "-" ++ n) →
        mapGet s'.2.rest_api_states k = mapGet s.2.rest_api_states k

/-- Restoring a list of REST API ids one after the other. -/
def RestoredAll : List String → World × ResourceData → World × ResourceData → Prop
  | [], s, s' => s' = s
  | restApiId :: rest, s, s' => ∃ s1, Restored restApiId s s1 ∧ RestoredAll rest s1 s'

/-- Applying a list of REST API ids one after the other. -/
def AppliedAll : List String → World × ResourceData → World × ResourceData → Prop
  | [], s, s' => s' = s
  | restApiId :: rest, s, s' => ∃ s1, Applied restApiId s s1 ∧ AppliedAll rest s1 s'

/-- The world `demoWorld` with a service whose first listing of a REST API does not yet
show its second stage: the stage `prod` appears between the two listings of
`configureRestApi`. -/
def driftingWorld : World :=
  { demoWorld with
    lists := fun calls apis restApiId =>
      if calls.any fun c => c.1 == ApiCall.GetStages restApiId then apis.lookup restApiId
      else (apis.lookup restApiId).map (List.take 1) }

/-- A stage of a second REST API. -/
def stageLive : Stage :=
  { StageName := some "live"
    MethodSettings := [("*/*", { DataTraceEnabled := some false, LoggingLevel := some "OFF" })]
    AccessLogSettings := none }

/-- The world `demoWorld` with a second REST API, `xyz789`, with the stage `live`. -/
def twoApiWorld : World :=
  { demoWorld with apis := [("abc123", [stageDev, stageProd]), ("xyz789", [stageLive])] }

/-- The resource after `abc123` has been applied, when `xyz789` is added to
`rest_api_ids` and `abc123` is kept. -/
def keptData : ResourceData :=
  { id := "r-1"
    old_rest_api_ids := ["abc123"]
    rest_api_ids := ["abc123", "xyz789"]
    rest_api_states := [("abc123-dev", "false!OFF!NO!NO"), ("abc123-prod", "true!ERROR!X!Y")] }

/-- A stage whose access-log format contains the delimiter `!`. -/
def stageBang : Stage :=
  { StageName := some "live"
    MethodSettings := [("*/*", { DataTraceEnabled := some true, LoggingLevel := some "ERROR" })]
    AccessLogSettings := some { Format := some "a!b", DestinationArn := some "arn:x" } }

/-- The world `demoWorld` with `stageBang` as the only stage of `abc123`. -/
def bangWorld : World :=
  { demoWorld with apis := [("abc123", [stageBang])] }

/-- A Macie2 service in which disassociating account `222` fails because the account is
not associated with the administrator account, and every other request succeeds. -/
def strictMacie : Macie2 :=
  { respond := fun _ call =>
      if call = MacieCall.DisassociateMember "222" then
        some "ValidationException: The specified account is not associated with your account."
      else none
    calls := []
    logs := [] }

/-! ## Theorems -/

/-- C2: `generateLogGroup` is the concatenation
`arn:aws:logs:<region>:<accountId>:log-group:API-Gateway-Execution-Logs_<restApiId>/<stageName>`
of its four arguments, for all argument strings, and yields the documented ARN on the
example arguments. -/
theorem generateLogGroup_format (accountId region restApiId stageName : String) :
    generateLogGroup accountId region restApiId stageName
        = "arn:aws:logs:" ++ region ++ ":" ++ accountId
            ++ ":log-group:API-Gateway-Execution-Logs_" ++ restApiId ++ "/" ++ stageName
      ∧ generateLogGroup "111111111111" "us-east-1" "abc123" "prod"
        = "arn:aws:logs:us-east-1:111111111111:log-group:API-Gateway-Execution-Logs_abc123/prod" := by
  constructor
  · apply String.ext
    simp [generateLogGroup, Sprintf, sprintfChars, formatValue]
  · decide

/-- The map key `fmt.Sprintf("%v-%v", restApiId, stageName)`. -/
theorem Sprintf_identifier (a b : String) :
    Sprintf "%v-%v" [.str a, .str b] = a ++ "-" ++ b := by
  apply String.ext
  simp [Sprintf, sprintfChars, formatValue]

/-- The map value `fmt.Sprintf("%v!%v!%v!%v", ...)` of a snapshot. -/
theorem Sprintf_state (t : Bool) (l f a : String) :
    Sprintf "%v!%v!%v!%v" [.bool t, .str l, .str f, .str a]
      = (if t then "true" else "false") ++ "!" ++ l ++ "!" ++ f ++ "!" ++ a := by
  apply String.ext
  cases t <;> simp [Sprintf, sprintfChars, formatValue]

/-- For a fixed REST API id, distinct stage names have distinct keys. -/
theorem identifier_injective (a b c : String) (h : a ++ "-" ++ b = a ++ "-" ++ c) : b = c := by
  have h' := congrArg String.data h
  simp only [String.data_append, List.append_assoc] at h'
  exact String.ext (List.append_cancel_left (List.append_cancel_left h'))

theorem mapGet_mapDelete (m : StateMap) (k k' : String) :
    mapGet (mapDelete m k) k' = if k' = k then none else mapGet m k' := by
  induction m with
  | nil => simp [mapGet, mapDelete]
  | cons e m ih =>
    obtain ⟨ek, ev⟩ := e
    by_cases hk : ek = k <;> by_cases hk' : k' = k <;> by_cases he : ek = k' <;>
      simp_all [mapGet, mapDelete]

theorem mapGet_append_single (m : StateMap) (k v k' : String) :
    mapGet (m ++ [(k, v)]) k' = (mapGet m k').orElse fun _ => if k = k' then some v else none := by
  induction m with
  | nil => simp [mapGet]
  | cons e m ih =>
    obtain ⟨ek, ev⟩ := e
    by_cases he : ek = k' <;> simp_all [mapGet]

theorem mapGet_mapSet (m : StateMap) (k v k' : String) :
    mapGet (mapSet m k v) k' = if k' = k then some v else mapGet m k' := by
  rw [mapSet, mapGet_append_single, mapGet_mapDelete]
  by_cases h : k' = k
  · simp [h]
  · have h' : ¬ k = k' := fun e => h e.symm
    cases hm : mapGet m k' <;> simp [h, h']

theorem entriesAt_mapDelete (m : StateMap) (k k' : String) :
    entriesAt (mapDelete m k) k' = if k' = k then [] else entriesAt m k' := by
  induction m with
  | nil => simp [entriesAt, mapDelete]
  | cons e m ih =>
    obtain ⟨ek, ev⟩ := e
    by_cases hk : ek = k <;> by_cases hk' : k' = k <;> by_cases he : ek = k' <;>
      simp_all [entriesAt, mapDelete]

theorem entriesAt_append_single (m : StateMap) (k v k' : String) :
    entriesAt (m ++ [(k, v)]) k' = entriesAt m k' ++ if k = k' then [(k, v)] else [] := by
  induction m with
  | nil => simp [entriesAt]
  | cons e m ih =>
    obtain ⟨ek, ev⟩ := e
    by_cases he : ek = k' <;> simp_all [entriesAt]

theorem entriesAt_mapSet (m : StateMap) (k v k' : String) :
    entriesAt (mapSet m k v) k' = if k' = k then [(k, v)] else entriesAt m k' := by
  rw [mapSet, entriesAt_append_single, entriesAt_mapDelete]
  by_cases h : k' = k
  · simp [h]
  · have h' : ¬ k = k' := fun e => h e.symm
    simp [h, h']

theorem extractStageState_off (s : Stage) (ms : MethodSetting) (t : Bool) (l : String)
    (hms : s.MethodSettings.lookup "*/*" = some ms) (ht : ms.DataTraceEnabled = some t)
    (hl : ms.LoggingLevel = some l) (ha : s.AccessLogSettings = none) :
    extractStageState s = .ok ⟨t, l, "NO", "NO"⟩ := by
  simp [extractStageState, getAccessLogsSettings, deref, hms, ht, hl, ha, bind, Except.bind, pure,
    Except.pure]

theorem extractStageState_on (s : Stage) (ms : MethodSetting) (t : Bool) (l f a : String)
    (hms : s.MethodSettings.lookup "*/*" = some ms) (ht : ms.DataTraceEnabled = some t)
    (hl : ms.LoggingLevel = some l)
    (ha : s.AccessLogSettings = some { Format := some f, DestinationArn := some a }) :
    extractStageState s = .ok ⟨t, l, f, a⟩ := by
  simp [extractStageState, getAccessLogsSettings, deref, hms, ht, hl, ha, bind, Except.bind, pure,
    Except.pure]

theorem populated_extract (s : Stage) (h : s.populated = true) :
    ∃ n st, s.StageName = some n ∧ extractStageState s = .ok st := by
  obtain ⟨name, ms, al⟩ := s
  simp only [Stage.populated, Bool.and_eq_true] at h
  obtain ⟨⟨hn, hm⟩, ha⟩ := h
  cases name with
  | none => simp at hn
  | some n =>
    refine ⟨n, ?_⟩
    cases hms : ms.lookup "*/*" with
    | none => simp [hms] at hm
    | some m =>
      obtain ⟨t, l⟩ := m
      cases t with
      | none => simp [hms] at hm
      | some t =>
        cases l with
        | none => simp [hms] at hm
        | some l =>
          cases al with
          | none => exact ⟨_, rfl, extractStageState_off _ _ t l hms rfl rfl rfl⟩
          | some a =>
            obtain ⟨f, d⟩ := a
            cases f with
            | none => simp at ha
            | some f =>
              cases d with
              | none => simp at ha
              | some d => exact ⟨_, rfl, extractStageState_on _ _ t l f d hms rfl rfl rfl⟩

/-- One iteration of the snapshot loop on a stage whose pointers are all set. -/
theorem saveStagesLoop_cons (restApiId : String) (stage : Stage) (rest : List Stage)
    (m : StateMap) (n : String) (st : StageState) (hn : stage.StageName = some n)
    (hst : extractStageState stage = .ok st) :
    saveStagesLoop restApiId (stage :: rest) m
      = saveStagesLoop restApiId rest
          (mapSet m (restApiId ++ "-" ++ n)
            ((if st.dataTraceEnabled then "true" else "false") ++ "!" ++ st.loggingLevel ++ "!"
              ++ st.accessLogsFormat ++ "!" ++ st.accessLogsDestinationArn)) := by
  simp [saveStagesLoop, hn, hst, deref, bind, Except.bind, Sprintf_identifier, Sprintf_state]

theorem saveStagesLoop_ok (restApiId : String) (stages : List Stage) :
    ∀ m : StateMap, (∀ s ∈ stages, s.populated = true) →
      ∃ m', saveStagesLoop restApiId stages m = .ok m' := by
  induction stages with
  | nil => intro m _; exact ⟨m, rfl⟩
  | cons stage rest ih =>
    intro m h
    obtain ⟨n, st, hn, hst⟩ := populated_extract stage (h stage (List.mem_cons_self _ _))
    rw [saveStagesLoop_cons restApiId stage rest m n st hn hst]
    exact ih _ fun s hs => h s (List.mem_cons_of_mem _ hs)

theorem saveStagesLoop_inv (restApiId : String) (stages : List Stage) :
    ∀ m m' : StateMap, saveStagesLoop restApiId stages m = .ok m' →
      (∀ s ∈ stages, ∃ n st, s.StageName = some n ∧ extractStageState s = .ok st) := by
  induction stages with
  | nil => intro m m' _ s hs; simp at hs
  | cons stage rest ih =>
    intro m m' h s hs
    cases hn : stage.StageName with
    | none => simp [saveStagesLoop, hn, deref, bind, Except.bind] at h
    | some n =>
      cases hst : extractStageState stage with
      | error e => simp [saveStagesLoop, hn, hst, deref, bind, Except.bind] at h
      | ok st =>
        rw [saveStagesLoop_cons restApiId stage rest m n st hn hst] at h
        rcases List.mem_cons.1 hs with rfl | hs'
        · exact ⟨n, st, hn, hst⟩
        · exact ih _ _ h s hs'

theorem saveStagesLoop_other (restApiId : String) (stages : List Stage) :
    ∀ m m' : StateMap, saveStagesLoop restApiId stages m = .ok m' →
      ∀ k, (∀ s ∈ stages, ∀ n, s.StageName = some n → k ≠ restApiId ++ "-" ++ n) →
        mapGet m' k = mapGet m k := by
  induction stages with
  | nil =>
    intro m m' h k _
    simp [saveStagesLoop] at h
    rw [h]
  | cons stage rest ih =>
    intro m m' h k hk
    obtain ⟨n, st, hn, hst⟩ :=
      saveStagesLoop_inv restApiId _ m m' h stage (List.mem_cons_self _ _)
    rw [saveStagesLoop_cons restApiId stage rest m n st hn hst] at h
    rw [ih _ _ h k fun s hs => hk s (List.mem_cons_of_mem _ hs), mapGet_mapSet,
      if_neg (hk stage (List.mem_cons_self _ _) n hn)]

theorem saveStagesLoop_entry (restApiId : String) (stages : List Stage) :
    ∀ m m' : StateMap, saveStagesLoop restApiId stages m = .ok m' →
      (stages.map fun s => s.StageName).Nodup →
      ∀ s ∈ stages, ∀ n st, s.StageName = some n → extractStageState s = .ok st →
        mapGet m' (restApiId ++ "-" ++ n)
          = some ((if st.dataTraceEnabled then "true" else "false") ++ "!" ++ st.loggingLevel
              ++ "!" ++ st.accessLogsFormat ++ "!" ++ st.accessLogsDestinationArn) := by
  induction stages with
  | nil => intro m m' _ _ s hs; simp at hs
  | cons stage rest ih =>
    intro m m' h hd s hs n st hn hst
    obtain ⟨n0, st0, hn0, hst0⟩ :=
      saveStagesLoop_inv restApiId _ m m' h stage (List.mem_cons_self _ _)
    rw [saveStagesLoop_cons restApiId stage rest m n0 st0 hn0 hst0] at h
    rw [List.map_cons, List.nodup_cons] at hd
    rcases List.mem_cons.1 hs with rfl | hs'
    · have hnn : n0 = n := Option.some.inj (hn0.symm.trans hn)
      have hss : st0 = st := Except.ok.inj (hst0.symm.trans hst)
      subst hnn; subst hss
      rw [saveStagesLoop_other restApiId rest _ _ h, mapGet_mapSet, if_pos rfl]
      intro s' hs' n' hn' hEq
      have := identifier_injective _ _ _ hEq
      subst this
      exact hd.1 (List.mem_map.2 ⟨s', hs', hn'.trans hn.symm⟩)
    · exact ih _ _ h hd.2 s hs' n st hn hst

theorem saveStagesLoop_count (restApiId : String) (stages : List Stage) :
    ∀ m m' : StateMap, saveStagesLoop restApiId stages m = .ok m' →
      ∀ k, ((entriesAt m k).length = 1
          ∨ ∃ s ∈ stages, ∃ n, s.StageName = some n ∧ k = restApiId ++ "-" ++ n) →
        (entriesAt m' k).length = 1 := by
  induction stages with
  | nil =>
    intro m m' h k hk
    simp [saveStagesLoop] at h
    subst h
    rcases hk with hk | ⟨s, hs, _⟩
    · exact hk
    · simp at hs
  | cons stage rest ih =>
    intro m m' h k hk
    obtain ⟨n0, st0, hn0, hst0⟩ :=
      saveStagesLoop_inv restApiId _ m m' h stage (List.mem_cons_self _ _)
    rw [saveStagesLoop_cons restApiId stage rest m n0 st0 hn0 hst0] at h
    apply ih _ _ h k
    by_cases hkk : k = restApiId ++ "-" ++ n0
    · left
      rw [entriesAt_mapSet, if_pos hkk]
      rfl
    · rcases hk with hk | ⟨s, hs, n, hn, hkn⟩
      · left
        rw [entriesAt_mapSet, if_neg hkk]
        exact hk
      · rcases List.mem_cons.1 hs with rfl | hs'
        · exact absurd (by rw [hkn, Option.some.inj (hn.symm.trans hn0)]) hkk
        · exact Or.inr ⟨s, hs', n, hn, hkn⟩

/-- C10: for populated, distinctly named stages `saveStagesStates` returns, and the map it
returns holds under `restApiId ++ "-" ++ stageName` the four fields joined by `!`: the
trace flag rendered as `true`/`false`, the logging level, and the stage's own access-log
format and destination, or `NO` and `NO` when it has no access-log settings; every key
that is no stage's key reads as before. -/
theorem saveStagesStates_encoding (w : World) (d : ResourceData) (restApiId : String)
    (hp : ∀ s ∈ (GetStages w restApiId).2.1, s.populated = true)
    (hd : ((GetStages w restApiId).2.1.map fun s => s.StageName).Nodup) :
    ∃ w' allStates, saveStagesStates w d restApiId = .ok (w', allStates)
      ∧ (∀ s ∈ (GetStages w restApiId).2.1, ∀ n ms t l, s.StageName = some n →
          s.MethodSettings.lookup "*/*" = some ms → ms.DataTraceEnabled = some t →
          ms.LoggingLevel = some l →
          (s.AccessLogSettings = none →
            mapGet allStates (restApiId ++ "-" ++ n)
              = some ((if t then "true" else "false") ++ "!" ++ l ++ "!" ++ "NO" ++ "!" ++ "NO"))
          ∧ ∀ f a, s.AccessLogSettings = some { Format := some f, DestinationArn := some a } →
            mapGet allStates (restApiId ++ "-" ++ n)
              = some ((if t then "true" else "false") ++ "!" ++ l ++ "!" ++ f ++ "!" ++ a))
      ∧ ∀ k, (∀ s ∈ (GetStages w restApiId).2.1, ∀ n, s.StageName = some n →
          k ≠ restApiId ++ "-" ++ n) → mapGet allStates k = mapGet d.rest_api_states k := by
  obtain ⟨m', hm'⟩ := saveStagesLoop_ok restApiId _ d.rest_api_states hp
  refine ⟨(GetStages w restApiId).1, m', ?_, ?_, ?_⟩
  · simp [saveStagesStates, hm', bind, Except.bind, pure, Except.pure]
  · intro s hs n ms t l hn hms ht hl
    constructor
    · intro ha
      have h := saveStagesLoop_entry restApiId _ _ _ hm' hd s hs n _ hn
        (extractStageState_off s ms t l hms ht hl ha)
      dsimp only at h
      exact h
    · intro f a ha
      have h := saveStagesLoop_entry restApiId _ _ _ hm' hd s hs n _ hn
        (extractStageState_on s ms t l f a hms ht hl ha)
      dsimp only at h
      exact h
  · intro k hk
    exact saveStagesLoop_other restApiId _ _ _ hm' k hk

/-- A stage listing only appends itself to the request log. -/
theorem GetStages_world (w : World) (restApiId : String) :
    (GetStages w restApiId).1
      = { w with calls := w.calls ++ [(ApiCall.GetStages restApiId, (GetStages w restApiId).2.2)] } := by
  simp only [GetStages]
  split <;> rfl

/-- The identity request only appends itself to the request log and yields the account. -/
theorem GetCallerIdentity_world (w : World) :
    (GetCallerIdentity w).1
        = { w with calls := w.calls ++ [(ApiCall.GetCallerIdentity, (GetCallerIdentity w).2.2)] }
      ∧ (GetCallerIdentity w).2.1 = w.account := by
  simp only [GetCallerIdentity]
  split <;> simp_all

/-- The request log after the two listings of `configureRestApi`. -/
theorem secondListing_calls (w : World) (restApiId : String) :
    (secondListing w restApiId).1.calls
      = w.calls ++
          [(ApiCall.GetCallerIdentity, (GetCallerIdentity w).2.2),
            (ApiCall.GetStages restApiId, (firstListing w restApiId).2.2),
            (ApiCall.GetStages restApiId, (secondListing w restApiId).2.2)] := by
  have h1 := (GetCallerIdentity_world w).1
  have h2 := GetStages_world (GetCallerIdentity w).1 restApiId
  have h3 := GetStages_world (firstListing w restApiId).1 restApiId
  have e3 := congrArg World.calls h3
  have e2 := congrArg World.calls h2
  have e1 := congrArg World.calls h1
  simp only [firstListing, secondListing] at e3 e2 ⊢
  rw [e3, e2, e1]
  simp

/-- A stage patch appends exactly itself, with its outcome, to the request log. -/
theorem UpdateStage_calls (w : World) (restApiId : String) (stageName : Option String)
    (ops : List PatchOperation) :
    (UpdateStage w restApiId stageName ops).1.calls
      = w.calls ++ [(ApiCall.UpdateStage restApiId stageName ops,
          (UpdateStage w restApiId stageName ops).2)] := by
  unfold UpdateStage
  cases stageName with
  | none => rfl
  | some name =>
    cases w.apis.lookup restApiId with
    | none => rfl
    | some stages =>
      dsimp only
      cases stages.find? fun s => s.StageName == some name with
      | none => rfl
      | some s =>
        dsimp only
        cases w.patch s ops <;> rfl

/-- The requests of the apply loop: one `UpdateStage` per stage, in order, carrying the
four `replace` operations. -/
theorem configureLoop_inv (accountId region : Option String) (restApiId : String)
    (stages : List Stage) :
    ∀ w w' : World, configureLoop accountId region restApiId stages w = .ok w' →
      ∃ us : List (ApiCall × Option String), w'.calls = w.calls ++ us
        ∧ List.Forall₂
            (fun c s => ∃ a r n, accountId = some a ∧ region = some r ∧ s.StageName = some n
              ∧ c.1 = ApiCall.UpdateStage restApiId (some n)
                  [ { Op := "replace", Path := "/*/*/logging/loglevel", Value := some "INFO" },
                    { Op := "replace", Path := "/*/*/logging/dataTrace", Value := some "true" },
                    { Op := "replace", Path := "/accessLogSettings/format",
                      Value := some accessLogFormat },
                    { Op := "replace", Path := "/accessLogSettings/destinationArn",
                      Value := some (generateLogGroup a r restApiId n) } ])
            us stages := by
  induction stages with
  | nil =>
    intro w w' h
    simp [configureLoop] at h
    subst h
    exact ⟨[], by simp, List.Forall₂.nil⟩
  | cons stage rest ih =>
    intro w w' h
    cases accountId with
    | none => simp [configureLoop, deref, bind, Except.bind] at h
    | some a =>
      cases region with
      | none => simp [configureLoop, deref, bind, Except.bind] at h
      | some r =>
        cases hn : stage.StageName with
        | none => simp [configureLoop, deref, bind, Except.bind, hn] at h
        | some n =>
          simp only [configureLoop, deref, bind, Except.bind, hn] at h
          obtain ⟨us, hus, hf⟩ := ih _ _ h
          rw [UpdateStage_calls, List.append_assoc, List.singleton_append] at hus
          exact ⟨_, hus, List.Forall₂.cons ⟨a, r, n, rfl, rfl, hn, rfl⟩ hf⟩

theorem configureLoop_ok (a r restApiId : String) (stages : List Stage) :
    ∀ w : World, (∀ s ∈ stages, s.StageName.isSome = true) →
      ∃ w', configureLoop (some a) (some r) restApiId stages w = .ok w' := by
  induction stages with
  | nil => intro w _; exact ⟨w, rfl⟩
  | cons stage rest ih =>
    intro w h
    have hs := h stage (List.mem_cons_self _ _)
    cases hn : stage.StageName with
    | none => simp [hn] at hs
    | some n =>
      simp only [configureLoop, deref, bind, Except.bind, hn]
      exact ih _ fun s hs => h s (List.mem_cons_of_mem _ hs)

/-- Normal form of `configureRestApi`: the snapshot loop on the first listing, then the
apply loop on the second listing. -/
theorem configureRestApi_eq (w : World) (d : ResourceData) (restApiId : String) :
    configureRestApi w d restApiId
      = (saveStagesLoop restApiId (firstListing w restApiId).2.1 d.rest_api_states).bind
          fun m' =>
            (configureLoop w.account w.region restApiId (secondListing w restApiId).2.1
              (secondListing w restApiId).1).bind fun w4 =>
              .ok (w4, { d with rest_api_states := m' }, none) := by
  simp only [configureRestApi, saveStagesStates, firstListing, secondListing, bind, Except.bind,
    pure, Except.pure, (GetCallerIdentity_world w).2]
  cases saveStagesLoop restApiId (GetStages (GetCallerIdentity w).1 restApiId).2.1
    d.rest_api_states <;> rfl

theorem index_ok (details : List String) (i : Nat) (h : i < details.length) :
    ∃ x, index details i = .ok x := by
  unfold index
  cases hg : details.get? i with
  | none => exact absurd hg (by simp [List.get?_eq_none]; omega)
  | some x => exact ⟨x, rfl⟩

theorem deconfigureLoop_cons_inv (restApiId : String) (stage : Stage) (rest : List Stage)
    (w : World) (m : StateMap) (r : World × StateMap)
    (h : deconfigureLoop restApiId (stage :: rest) w m = .ok r) :
    ∃ n ops, stage.StageName = some n
      ∧ deconfigureLoop restApiId rest (UpdateStage w restApiId (some n) ops).1
          (mapDelete m (restApiId ++ "-" ++ n)) = .ok r := by
  cases hn : stage.StageName with
  | none => simp [deconfigureLoop, hn, deref, bind, Except.bind] at h
  | some n =>
    simp only [deconfigureLoop, hn, deref, bind, Except.bind, Sprintf_identifier] at h
    cases he : mapGet m (restApiId ++ "-" ++ n) with
    | none => simp [he, assertString] at h
    | some entry =>
      simp only [he, assertString] at h
      cases h0 : index (Split entry '!') 0 with
      | error e => simp [h0] at h
      | ok x0 =>
        cases h1 : index (Split entry '!') 1 with
        | error e => simp [h0, h1] at h
        | ok x1 =>
          cases h2 : index (Split entry '!') 2 with
          | error e => simp [h0, h1, h2] at h
          | ok x2 =>
            cases h3 : index (Split entry '!') 3 with
            | error e => simp [h0, h1, h2, h3] at h
            | ok x3 =>
              simp only [h0, h1, h2, h3] at h
              exact ⟨n, _, rfl, h⟩

theorem deconfigureLoop_cons_ok (restApiId : String) (stage : Stage) (rest : List Stage)
    (w : World) (m : StateMap) (hs : hasSnapshot m restApiId stage = true) :
    ∃ n ops, stage.StageName = some n
      ∧ deconfigureLoop restApiId (stage :: rest) w m
        = deconfigureLoop restApiId rest (UpdateStage w restApiId (some n) ops).1
            (mapDelete m (restApiId ++ "-" ++ n)) := by
  unfold hasSnapshot at hs
  cases hn : stage.StageName with
  | none => simp [hn] at hs
  | some n =>
    cases he : mapGet m (restApiId ++ "-" ++ n) with
    | none => simp [hn, he] at hs
    | some entry =>
      simp only [hn, he, decide_eq_true_eq] at hs
      obtain ⟨x0, h0⟩ := index_ok (Split entry '!') 0 (by omega)
      obtain ⟨x1, h1⟩ := index_ok (Split entry '!') 1 (by omega)
      obtain ⟨x2, h2⟩ := index_ok (Split entry '!') 2 (by omega)
      obtain ⟨x3, h3⟩ := index_ok (Split entry '!') 3 (by omega)
      have key : deconfigureLoop restApiId (stage :: rest) w m
          = deconfigureLoop restApiId (stage :: rest) w m := rfl
      conv at key =>
        rhs
        simp only [deconfigureLoop, hn, deref, bind, Except.bind, Sprintf_identifier, he,
          assertString, h0, h1, h2, h3]
      exact ⟨n, _, rfl, key⟩

theorem deconfigureLoop_ok (restApiId : String) (stages : List Stage) :
    ∀ (w : World) (m : StateMap), (∀ s ∈ stages, hasSnapshot m restApiId s = true) →
      (stages.map fun s => s.StageName).Nodup →
      ∃ r, deconfigureLoop restApiId stages w m = .ok r := by
  induction stages with
  | nil => intro w m _ _; exact ⟨(w, m), rfl⟩
  | cons stage rest ih =>
    intro w m hs hd
    obtain ⟨n, ops, hn, heq⟩ :=
      deconfigureLoop_cons_ok restApiId stage rest w m (hs stage (List.mem_cons_self _ _))
    rw [heq]
    rw [List.map_cons, List.nodup_cons] at hd
    apply ih _ _ _ hd.2
    intro s hsr
    have h1 := hs s (List.mem_cons_of_mem _ hsr)
    unfold hasSnapshot at h1 ⊢
    cases hsn : s.StageName with
    | none => simp [hsn] at h1
    | some n' =>
      have hne : ¬ restApiId ++ "-" ++ n' = restApiId ++ "-" ++ n := by
        intro hEq
        have := identifier_injective _ _ _ hEq
        subst this
        exact hd.1 (List.mem_map.2 ⟨s, hsr, hsn.trans hn.symm⟩)
      simp only [hsn, mapGet_mapDelete, if_neg hne] at h1 ⊢
      exact h1

theorem deconfigureLoop_inv (restApiId : String) (stages : List Stage) :
    ∀ (w : World) (m : StateMap) (r : World × StateMap),
      deconfigureLoop restApiId stages w m = .ok r →
      (∃ us : List (ApiCall × Option String), r.1.calls = w.calls ++ us
          ∧ List.Forall₂ (fun c s => ∃ ops, c.1 = ApiCall.UpdateStage restApiId s.StageName ops)
              us stages)
        ∧ (∀ s ∈ stages, ∀ n, s.StageName = some n → mapGet r.2 (restApiId ++ "-" ++ n) = none)
        ∧ ∀ k, (∀ s ∈ stages, ∀ n, s.StageName = some n → k ≠ restApiId ++ "-" ++ n) →
            mapGet r.2 k = mapGet m k := by
  induction stages with
  | nil =>
    intro w m r h
    simp [deconfigureLoop] at h
    subst h
    exact ⟨⟨[], by simp, List.Forall₂.nil⟩, by simp, fun _ _ => rfl⟩
  | cons stage rest ih =>
    intro w m r h
    obtain ⟨n, ops, hn, h'⟩ := deconfigureLoop_cons_inv restApiId stage rest w m r h
    obtain ⟨⟨us, hus, hf⟩, hdel, hkeep⟩ := ih _ _ _ h'
    rw [UpdateStage_calls, List.append_assoc, List.singleton_append] at hus
    refine ⟨⟨_, hus, List.Forall₂.cons ⟨ops, by rw [hn]⟩ hf⟩, ?_, ?_⟩
    · intro s hs n' hn'
      by_cases hin : ∃ s' ∈ rest, s'.StageName = some n'
      · obtain ⟨s', hs', hsn'⟩ := hin
        exact hdel s' hs' n' hsn'
      · rw [hkeep _ ?_, mapGet_mapDelete]
        · rcases List.mem_cons.1 hs with rfl | hs'
          · rw [if_pos (by rw [Option.some.inj (hn.symm.trans hn')])]
          · exact absurd ⟨s, hs', hn'⟩ hin
        · intro s' hs' n2 hn2 hEq
          have := identifier_injective _ _ _ hEq
          subst this
          exact hin ⟨s', hs', hn2⟩
    · intro k hk
      rw [hkeep k fun s hs => hk s (List.mem_cons_of_mem _ hs), mapGet_mapDelete,
        if_neg (hk stage (List.mem_cons_self _ _) n hn)]

/-- C8: when every listed stage is named, distinctly, and has a restorable snapshot,
`deconfigureRestApi` returns, and in the `rest_api_states` it writes back no listed
stage has an entry any more while every key that is no listed stage's key reads as
before. -/
theorem deconfigureRestApi_cleanup (w : World) (d : ResourceData) (restApiId : String)
    (hs : ∀ s ∈ (GetStages w restApiId).2.1, hasSnapshot d.rest_api_states restApiId s = true)
    (hd : ((GetStages w restApiId).2.1.map fun s => s.StageName).Nodup) :
    ∃ w' d', deconfigureRestApi w d restApiId = .ok (w', d')
      ∧ (∀ s ∈ (GetStages w restApiId).2.1, ∀ n, s.StageName = some n →
          mapGet d'.rest_api_states (restApiId ++ "-" ++ n) = none)
      ∧ ∀ k, (∀ s ∈ (GetStages w restApiId).2.1, ∀ n, s.StageName = some n →
          k ≠ restApiId ++ "-" ++ n) →
          mapGet d'.rest_api_states k = mapGet d.rest_api_states k := by
  obtain ⟨r, hr⟩ := deconfigureLoop_ok restApiId _ (GetStages w restApiId).1 _ hs hd
  obtain ⟨_, hdel, hkeep⟩ := deconfigureLoop_inv restApiId _ _ _ _ hr
  refine ⟨r.1, { d with rest_api_states := r.2 }, ?_, hdel, hkeep⟩
  simp [deconfigureRestApi, hr, bind, Except.bind, pure, Except.pure]

/-- A call returns exactly when its result is some `ok`. -/
theorem isOk_iff {α : Type} (x : Except Panic α) : x.isOk = true ↔ ∃ r, x = .ok r := by
  cases x with
  | error e => simp [Except.isOk, Except.toBool]
  | ok r => simp [Except.isOk, Except.toBool]

/-- Inversion of a returning sequence of two steps. -/
theorem bind_eq_ok {α β : Type} (x : Except Panic α) (f : α → Except Panic β) (r : β)
    (h : x >>= f = .ok r) : ∃ a, x = .ok a ∧ f a = .ok r := by
  cases x with
  | error e => simp [bind, Except.bind] at h
  | ok a => exact ⟨a, rfl, h⟩

/-- Inversion of a returning `configureRestApi`: the error is nil, the state map is the
one the snapshot loop makes of the first listing, and after the three read requests one
`UpdateStage` with the four `replace` operations is sent per stage of the second
listing. -/
theorem configureRestApi_inv (w : World) (d : ResourceData) (restApiId : String)
    (r : World × ResourceData × Option String) (h : configureRestApi w d restApiId = .ok r) :
    r.2.2 = none
      ∧ saveStagesLoop restApiId (firstListing w restApiId).2.1 d.rest_api_states
          = .ok r.2.1.rest_api_states
      ∧ ∃ us : List (ApiCall × Option String),
          r.1.calls = w.calls ++
              [(ApiCall.GetCallerIdentity, (GetCallerIdentity w).2.2),
                (ApiCall.GetStages restApiId, (firstListing w restApiId).2.2),
                (ApiCall.GetStages restApiId, (secondListing w restApiId).2.2)] ++ us
            ∧ List.Forall₂
                (fun c s => ∃ a r n, w.account = some a ∧ w.region = some r
                  ∧ s.StageName = some n
                  ∧ c.1 = ApiCall.UpdateStage restApiId (some n)
                      [ { Op := "replace", Path := "/*/*/logging/loglevel", Value := some "INFO" },
                        { Op := "replace", Path := "/*/*/logging/dataTrace", Value := some "true" },
                        { Op := "replace", Path := "/accessLogSettings/format",
                          Value := some accessLogFormat },
                        { Op := "replace", Path := "/accessLogSettings/destinationArn",
                          Value := some (generateLogGroup a r restApiId n) } ])
                us (secondListing w restApiId).2.1 := by
  rw [configureRestApi_eq] at h
  cases hm : saveStagesLoop restApiId (firstListing w restApiId).2.1 d.rest_api_states with
  | error e => simp [hm, Except.bind] at h
  | ok m' =>
    simp only [hm, Except.bind] at h
    cases hc : configureLoop w.account w.region restApiId (secondListing w restApiId).2.1
        (secondListing w restApiId).1 with
    | error e => simp [hc] at h
    | ok w4 =>
      simp only [hc] at h
      cases h
      obtain ⟨us, hus, hf⟩ := configureLoop_inv _ _ restApiId _ _ _ hc
      refine ⟨rfl, rfl, us, ?_, hf⟩
      rw [hus, secondListing_calls]

set_option maxRecDepth 100000 in
/-- The access-log format of source line 130 is the one-line JSON object of the twelve
fields `requestId`, `ip`, `caller`, `user`, `requestTime`, `httpMethod`, `path`, `status`,
`protocol`, `responseLength`, `domainName` and `accountId`. -/
theorem accessLogFormat_fields :
    accessLogFormat = jsonLogFormat accessLogFields ∧ accessLogFields.length = 12 := by
  decide

/-- C7 (amended): with the caller's account and the region available, every stage of the
first listing populated and every stage of the second listing named, `configureRestApi`
returns with a nil error. After `GetCallerIdentity` and the two stage listings it sends
one `UpdateStage` per stage of the second listing, in order, whose patch is the four
`replace` operations: log level `INFO`, data trace `true`, the twelve-field JSON
access-log format, and the destination
`generateLogGroup accountId region restApiId stageName`. The `rest_api_states` it writes
holds exactly one entry under the key of each stage of the first listing, and every key
of no such stage reads as before. -/
theorem configureRestApi_snapshot_and_patch (w : World) (d : ResourceData)
    (restApiId a r : String) (ha : w.account = some a) (hr : w.region = some r)
    (hp : ∀ s ∈ (firstListing w restApiId).2.1, s.populated = true)
    (hn : ∀ s ∈ (secondListing w restApiId).2.1, s.StageName.isSome = true) :
    ∃ w' d' us, configureRestApi w d restApiId = .ok (w', d', none)
      ∧ w'.calls.map Prod.fst
          = w.calls.map Prod.fst
            ++ [ApiCall.GetCallerIdentity, ApiCall.GetStages restApiId,
                ApiCall.GetStages restApiId]
            ++ us
      ∧ List.Forall₂
          (fun c s => ∃ n, s.StageName = some n
            ∧ c = ApiCall.UpdateStage restApiId (some n)
                [ { Op := "replace", Path := "/*/*/logging/loglevel", Value := some "INFO" },
                  { Op := "replace", Path := "/*/*/logging/dataTrace", Value := some "true" },
                  { Op := "replace", Path := "/accessLogSettings/format",
                    Value := some "\x7b\"requestId\":\"$context.requestId\",\"ip\":\"$context.identity.sourceIp\",\"caller\":\"$context.identity.caller\",\"user\":\"$context.identity.user\",\"requestTime\":\"$context.requestTime\",\"httpMethod\":\"$context.httpMethod\",\"path\":\"$context.path\",\"status\":\"$context.status\",\"protocol\":\"$context.protocol\",\"responseLength\":\"$context.responseLength\",\"domainName\":\"$context.domainName\",\"accountId\":\"$context.accountId\"\x7d" },
                  { Op := "replace", Path := "/accessLogSettings/destinationArn",
                    Value := some (generateLogGroup a r restApiId n) } ])
          us (secondListing w restApiId).2.1
      ∧ (∀ s ∈ (firstListing w restApiId).2.1, ∀ n, s.StageName = some n →
          (entriesAt d'.rest_api_states (restApiId ++ "-" ++ n)).length = 1)
      ∧ (∀ k, (∀ s ∈ (firstListing w restApiId).2.1, ∀ n, s.StageName = some n →
          k ≠ restApiId ++ "-" ++ n) →
          mapGet d'.rest_api_states k = mapGet d.rest_api_states k)
      ∧ "\x7b\"requestId\":\"$context.requestId\",\"ip\":\"$context.identity.sourceIp\",\"caller\":\"$context.identity.caller\",\"user\":\"$context.identity.user\",\"requestTime\":\"$context.requestTime\",\"httpMethod\":\"$context.httpMethod\",\"path\":\"$context.path\",\"status\":\"$context.status\",\"protocol\":\"$context.protocol\",\"responseLength\":\"$context.responseLength\",\"domainName\":\"$context.domainName\",\"accountId\":\"$context.accountId\"\x7d"
          = jsonLogFormat accessLogFields := by
  obtain ⟨m', hm'⟩ := saveStagesLoop_ok restApiId _ d.rest_api_states hp
  obtain ⟨w4, hw4⟩ := configureLoop_ok a r restApiId _ (secondListing w restApiId).1 hn
  have hrun : configureRestApi w d restApiId = .ok (w4, { d with rest_api_states := m' }, none) := by
    rw [configureRestApi_eq, hm', ha, hr]
    simp only [Except.bind, hw4]
  obtain ⟨_, _, us, hus, hf⟩ := configureRestApi_inv w d restApiId _ hrun
  refine ⟨w4, { d with rest_api_states := m' }, us.map Prod.fst, hrun, ?_, ?_, ?_, ?_, ?_⟩
  · rw [hus]
    simp
  · rw [List.forall₂_map_left_iff]
    refine hf.imp ?_
    rintro c s ⟨a', r', n, ha', hr', hsn, hc⟩
    have e1 : a' = a := Option.some.inj (ha'.symm.trans ha)
    have e2 : r' = r := Option.some.inj (hr'.symm.trans hr)
    subst e1
    subst e2
    exact ⟨n, hsn, hc⟩
  · intro s hs n hsn
    exact saveStagesLoop_count restApiId _ _ _ hm' _ (Or.inr ⟨s, hs, n, hsn, rfl⟩)
  · intro k hk
    exact saveStagesLoop_other restApiId _ _ _ hm' k hk
  · exact accessLogFormat_fields.1

/-- C4 (amended): `configureRestApi` never reports a failure. Whenever it returns, the
returned error is nil and, after `GetCallerIdentity` and the two stage listings, one
`UpdateStage` request has been sent for every stage of the second listing, in order,
whatever error each request (or a listing, which then lists no stage) returned; whenever
`resourceApiGatewayIntegrationCreate` returns, its error is nil as well. -/
theorem configureRestApi_discards_errors (w : World) (d : ResourceData) (restApiId : String)
    (h : (configureRestApi w d restApiId).isOk = true) :
    (∃ r us, configureRestApi w d restApiId = .ok r ∧ r.2.2 = none
        ∧ r.1.calls = w.calls ++
            [(ApiCall.GetCallerIdentity, (GetCallerIdentity w).2.2),
              (ApiCall.GetStages restApiId, (firstListing w restApiId).2.2),
              (ApiCall.GetStages restApiId, (secondListing w restApiId).2.2)] ++ us
        ∧ List.Forall₂
            (fun c s => ∃ ops, c.1 = ApiCall.UpdateStage restApiId s.StageName ops)
            us (secondListing w restApiId).2.1)
      ∧ ∀ newId, (resourceApiGatewayIntegrationCreate newId w d).isOk = true →
          ∃ r', resourceApiGatewayIntegrationCreate newId w d = .ok r' ∧ r'.2.2 = none := by
  constructor
  · obtain ⟨r, hr⟩ := (isOk_iff _).1 h
    obtain ⟨h1, _, us, hus, hf⟩ := configureRestApi_inv w d restApiId r hr
    refine ⟨r, us, hr, h1, hus, hf.imp ?_⟩
    rintro c s ⟨_, _, n, _, _, hn, hcc⟩
    exact ⟨_, by rw [hn]; exact hcc⟩
  · intro newId hc
    obtain ⟨r', hr'⟩ := (isOk_iff _).1 hc
    refine ⟨r', hr', ?_⟩
    simp only [resourceApiGatewayIntegrationCreate, bind, Except.bind, pure, Except.pure] at hr'
    cases hall : configureAll d.rest_api_ids w d with
    | error e => simp [hall] at hr'
    | ok x =>
      simp only [hall] at hr'
      cases hr'
      rfl

/-- C7, as stated, fails when the two listings differ: the stage `prod`, absent from the
first listing, is returned by the second listing and patched, but `rest_api_states`
holds no entry under `abc123-prod`. -/
theorem configureRestApi_patches_unsnapshotted_stage :
    (firstListing driftingWorld "abc123").2.1 = [stageDev]
      ∧ (secondListing driftingWorld "abc123").2.1 = [stageDev, stageProd]
      ∧ ((configureRestApi driftingWorld demoData "abc123").map fun r =>
          (r.2.1.rest_api_states, patchAttempts r.1.calls))
        = .ok ([("abc123-dev", "false!OFF!NO!NO")],
            [("abc123", some "dev", (none : Option String)),
              ("abc123", some "prod", (none : Option String))])
      ∧ ((configureRestApi driftingWorld demoData "abc123").map fun r =>
          (entriesAt r.2.1.rest_api_states "abc123-prod").length)
        = .ok 0 := by
  refine ⟨?_, ?_, ?_, ?_⟩ <;> decide

/-- The amended C7 at the world whose second listing shows one more stage. -/
theorem configureRestApi_snapshot_and_patch_witness :
    ∃ w' d', configureRestApi driftingWorld demoData "abc123" = .ok (w', d', none)
      ∧ (entriesAt d'.rest_api_states ("abc123" ++ "-" ++ "dev")).length = 1
      ∧ mapGet d'.rest_api_states "abc123-prod" = mapGet demoData.rest_api_states "abc123-prod" :=
  (configureRestApi_snapshot_and_patch driftingWorld demoData "abc123" "111111111111"
      "us-east-1" rfl rfl (by decide) (by decide)).elim
    fun w' h => h.elim fun d' h => h.elim fun _ h =>
      ⟨w', d', h.1, h.2.2.2.1 stageDev (by decide) "dev" rfl, h.2.2.2.2.1 "abc123-prod" (by decide)⟩

/-- The amended C4 at a service that rejects every patch. -/
theorem configureRestApi_discards_errors_witness :
    (configureRestApi rejectingWorld demoData "abc123").isOk = true
      ∧ (∃ r, configureRestApi rejectingWorld demoData "abc123" = .ok r ∧ r.2.2 = none)
      ∧ ∃ r', resourceApiGatewayIntegrationCreate "r-1" rejectingWorld demoData = .ok r'
          ∧ r'.2.2 = none :=
  have h := configureRestApi_discards_errors rejectingWorld demoData "abc123" (by decide)
  ⟨by decide, h.1.elim fun r hr => hr.elim fun _ hu => ⟨r, hu.1, hu.2.1⟩,
    h.2 "r-1" (by decide)⟩

/-- Four successful index reads name the first four elements of a slice. -/
theorem index_four (details : List String) (t l f a : String)
    (h0 : index details 0 = .ok t) (h1 : index details 1 = .ok l)
    (h2 : index details 2 = .ok f) (h3 : index details 3 = .ok a) :
    ∃ rest, details = t :: l :: f :: a :: rest := by
  match details, h0, h1, h2, h3 with
  | [], h0, _, _, _ => simp [index] at h0
  | [_], _, h1, _, _ => simp [index] at h1
  | [_, _], _, _, h2, _ => simp [index] at h2
  | [_, _, _], _, _, _, h3 => simp [index] at h3
  | x0 :: x1 :: x2 :: x3 :: rest, h0, h1, h2, h3 =>
    simp only [index, List.get?_cons_zero, List.get?_cons_succ, Except.ok.injEq] at h0 h1 h2 h3
    subst h0 h1 h2 h3
    exact ⟨rest, rfl⟩

/-- One returning iteration of the restore loop: the stage is named, its entry splits into
at least four fields, and the patch sent is made of them. -/
theorem deconfigureLoop_cons_restore (restApiId : String) (stage : Stage)
    (stages : List Stage) (w : World) (m : StateMap) (r : World × StateMap)
    (h : deconfigureLoop restApiId (stage :: stages) w m = .ok r) :
    ∃ n entry t l f a rest, stage.StageName = some n
      ∧ mapGet m (restApiId ++ "-" ++ n) = some entry
      ∧ Split entry '!' = t :: l :: f :: a :: rest
      ∧ deconfigureLoop restApiId stages
          (UpdateStage w restApiId (some n)
            ({ Op := "replace", Path := "/*/*/logging/loglevel", Value := some l }
              :: { Op := "replace", Path := "/*/*/logging/dataTrace", Value := some t }
              :: if f = "N0" then
                  [{ Op := "remove", Path := "/accessLogSettings", Value := none }]
                else
                  [ { Op := "replace", Path := "/accessLogSettings/destinationArn",
                      Value := some a },
                    { Op := "replace", Path := "/accessLogSettings/format",
                      Value := some f } ])).1
          (mapDelete m (restApiId ++ "-" ++ n)) = .ok r := by
  cases hn : stage.StageName with
  | none => simp [deconfigureLoop, hn, deref, bind, Except.bind] at h
  | some n =>
    simp only [deconfigureLoop, hn, deref, bind, Except.bind, Sprintf_identifier] at h
    cases he : mapGet m (restApiId ++ "-" ++ n) with
    | none => simp [he, assertString] at h
    | some entry =>
      simp only [he, assertString] at h
      cases h0 : index (Split entry '!') 0 with
      | error e => simp [h0] at h
      | ok x0 =>
        cases h1 : index (Split entry '!') 1 with
        | error e => simp [h0, h1] at h
        | ok x1 =>
          cases h2 : index (Split entry '!') 2 with
          | error e => simp [h0, h1, h2] at h
          | ok x2 =>
            cases h3 : index (Split entry '!') 3 with
            | error e => simp [h0, h1, h2, h3] at h
            | ok x3 =>
              simp only [h0, h1, h2, h3] at h
              obtain ⟨rest, hsplit⟩ := index_four _ _ _ _ _ h0 h1 h2 h3
              refine ⟨n, entry, x0, x1, x2, x3, rest, rfl, he, hsplit, ?_⟩
              by_cases hf : x2 = "N0"
              · simpa [hf] using h
              · simpa [hf] using h

/-- The requests and the map of a returning restore loop. -/
theorem deconfigureLoop_restores (restApiId : String) (stages : List Stage) :
    ∀ (w : World) (m : StateMap) (r : World × StateMap),
      deconfigureLoop restApiId stages w m = .ok r →
      ∃ us : List (ApiCall × Option String), r.1.calls = w.calls ++ us
        ∧ List.Forall₂
            (fun c stage => ∃ n entry t l f a rest, stage.StageName = some n
              ∧ mapGet m (restApiId ++ "-" ++ n) = some entry
              ∧ Split entry '!' = t :: l :: f :: a :: rest
              ∧ c.1 = ApiCall.UpdateStage restApiId (some n)
                  ({ Op := "replace", Path := "/*/*/logging/loglevel", Value := some l }
                    :: { Op := "replace", Path := "/*/*/logging/dataTrace", Value := some t }
                    :: if f = "N0" then
                        [{ Op := "remove", Path := "/accessLogSettings", Value := none }]
                      else
                        [ { Op := "replace", Path := "/accessLogSettings/destinationArn",
                            Value := some a },
                          { Op := "replace", Path := "/accessLogSettings/format",
                            Value := some f } ]))
            us stages := by
  induction stages with
  | nil =>
    intro w m r h
    simp [deconfigureLoop] at h
    subst h
    exact ⟨[], by simp, List.Forall₂.nil⟩
  | cons stage rest ih =>
    intro w m r h
    obtain ⟨n, entry, t, l, f, a, more, hn, he, hsplit, h'⟩ :=
      deconfigureLoop_cons_restore restApiId stage rest w m r h
    obtain ⟨us, hus, hf⟩ := ih _ _ _ h'
    rw [UpdateStage_calls, List.append_assoc, List.singleton_append] at hus
    refine ⟨_, hus, List.Forall₂.cons ⟨n, entry, t, l, f, a, more, hn, he, hsplit, rfl⟩
      (hf.imp ?_)⟩
    rintro c s ⟨n', entry', t', l', f', a', more', hn', he', hsplit', hc'⟩
    refine ⟨n', entry', t', l', f', a', more', hn', ?_, hsplit', hc'⟩
    rw [mapGet_mapDelete] at he'
    by_cases hk : restApiId ++ "-" ++ n' = restApiId ++ "-" ++ n
    · rw [if_pos hk] at he'
      cases he'
    · rw [if_neg hk] at he'
      exact he'

/-- A returning `deconfigureRestApi` has the effect `Restored`. -/
theorem deconfigureRestApi_restored (w : World) (d : ResourceData) (restApiId : String)
    (r : World × ResourceData) (h : deconfigureRestApi w d restApiId = .ok r) :
    Restored restApiId (w, d) r := by
  simp only [deconfigureRestApi, bind, Except.bind, pure, Except.pure] at h
  cases hl : deconfigureLoop restApiId (GetStages w restApiId).2.1 (GetStages w restApiId).1
      d.rest_api_states with
  | error e => simp [hl] at h
  | ok r' =>
    simp only [hl] at h
    cases h
    obtain ⟨us, hus, hf⟩ := deconfigureLoop_restores restApiId _ _ _ _ hl
    obtain ⟨_, hdel, hkeep⟩ := deconfigureLoop_inv restApiId _ _ _ _ hl
    refine ⟨⟨us, ?_, hf.imp ?_⟩, hdel, hkeep⟩
    · have hc := congrArg World.calls (GetStages_world w restApiId)
      dsimp only at hc ⊢
      rw [hus, hc, List.append_assoc, List.singleton_append]
    · rintro c s ⟨n, entry, t, l, f, a, more, hn, he, hsplit, hc⟩
      exact ⟨n, entry, t, l, f, a, more, _, hn, he, hsplit, hc⟩

/-- A returning `configureRestApi` has the effect `Applied`. -/
theorem configureRestApi_applied (w : World) (d : ResourceData) (restApiId : String)
    (r : World × ResourceData × Option String) (h : configureRestApi w d restApiId = .ok r) :
    Applied restApiId (w, d) (r.1, r.2.1) := by
  obtain ⟨_, hm, us, hus, hf⟩ := configureRestApi_inv w d restApiId r h
  simp only [accessLogFormat_fields.1] at hf
  refine ⟨⟨us, hus, hf⟩, ?_, ?_⟩
  · intro s hs n hn
    exact saveStagesLoop_count restApiId _ _ _ hm _ (Or.inr ⟨s, hs, n, hn, rfl⟩)
  · intro k hk
    exact saveStagesLoop_other restApiId _ _ _ hm k hk

/-- The restore loop over a list of ids restores each of them in turn. -/
theorem deconfigureAll_restored (ids : List String) :
    ∀ (w : World) (d : ResourceData) (r : World × ResourceData),
      deconfigureAll ids w d = .ok r → RestoredAll ids (w, d) r := by
  induction ids with
  | nil =>
    intro w d r h
    simp [deconfigureAll] at h
    exact h.symm
  | cons restApiId rest ih =>
    intro w d r h
    obtain ⟨⟨w1, d1⟩, h1, h2⟩ := bind_eq_ok _ _ _ h
    exact ⟨(w1, d1), deconfigureRestApi_restored w d restApiId _ h1, ih _ _ _ h2⟩

/-- The apply loop over a list of ids applies each of them in turn. -/
theorem configureAll_applied (ids : List String) :
    ∀ (w : World) (d : ResourceData) (r : World × ResourceData),
      configureAll ids w d = .ok r → AppliedAll ids (w, d) r := by
  induction ids with
  | nil =>
    intro w d r h
    simp [configureAll] at h
    exact h.symm
  | cons restApiId rest ih =>
    intro w d r h
    obtain ⟨⟨w1, d1, e⟩, h1, h2⟩ := bind_eq_ok _ _ _ h
    exact ⟨(w1, d1), configureRestApi_applied w d restApiId _ h1, ih _ _ _ h2⟩

/-- C5 (amended): whenever `resourceApiGatewayIntegrationUpdate` returns, its error is nil
and it has restored every id of the old set, in order, and then applied every id of the
new set, in order, whether or not an id is in both sets. Restoring an id lists its stages,
sends every listed stage a patch read from its entry and deletes the entry; applying an
id sends `GetCallerIdentity` and two stage listings, stores an entry for every stage of
the first listing and sends every stage of the second listing the verbose patch. -/
theorem update_restores_old_then_applies_new (w : World) (d : ResourceData)
    (h : (resourceApiGatewayIntegrationUpdate w d).isOk = true) :
    ∃ s1 s2, RestoredAll d.old_rest_api_ids (w, d) s1 ∧ AppliedAll d.rest_api_ids s1 s2
      ∧ resourceApiGatewayIntegrationUpdate w d = .ok (s2.1, s2.2, none) := by
  obtain ⟨r, hr⟩ := (isOk_iff _).1 h
  have hr0 := hr
  unfold resourceApiGatewayIntegrationUpdate at hr
  obtain ⟨⟨w1, d1⟩, h1, hr⟩ := bind_eq_ok _ _ _ hr
  obtain ⟨⟨w2, d2⟩, h2, hr⟩ := bind_eq_ok _ _ _ hr
  cases hr
  refine ⟨(w1, d1), (w2, d2), ?_, ?_, hr0⟩
  · by_cases hlen : d.old_rest_api_ids.length > 0
    · rw [if_pos hlen] at h1
      exact deconfigureAll_restored _ _ _ _ h1
    · rw [if_neg hlen] at h1
      cases h1
      have : d.old_rest_api_ids = [] := List.length_eq_zero.1 (by omega)
      rw [this]
      rfl
  · by_cases hlen : d.rest_api_ids.length > 0
    · rw [if_pos hlen] at h2
      exact configureAll_applied _ _ _ _ h2
    · rw [if_neg hlen] at h2
      cases h2
      have : d.rest_api_ids = [] := List.length_eq_zero.1 (by omega)
      rw [this]
      rfl

/-- C5, as stated, fails: when `xyz789` is added and `abc123` is kept, the update lists
the stages of `abc123` for the restore, sends both the patches read from their entries
(log levels `OFF` and `ERROR`), and then applies `abc123` again (log level `INFO`) before
it applies `xyz789`. -/
theorem update_restores_and_reapplies_kept_id :
    ((resourceApiGatewayIntegrationUpdate twoApiWorld keptData).map fun r =>
        (readRequests r.1.calls, patchLevels r.1.calls))
      = .ok
        ([ApiCall.GetStages "abc123", ApiCall.GetCallerIdentity, ApiCall.GetStages "abc123",
            ApiCall.GetStages "abc123", ApiCall.GetCallerIdentity, ApiCall.GetStages "xyz789",
            ApiCall.GetStages "xyz789"],
          [("abc123", some "dev", some "OFF"), ("abc123", some "prod", some "ERROR"),
            ("abc123", some "dev", some "INFO"), ("abc123", some "prod", some "INFO"),
            ("xyz789", some "live", some "INFO")]) := by
  decide

/-- The amended C5 at the update that adds `xyz789` and keeps `abc123`. -/
theorem update_restores_old_then_applies_new_witness :
    (resourceApiGatewayIntegrationUpdate twoApiWorld keptData).isOk = true
      ∧ ∃ s1 s2, RestoredAll keptData.old_rest_api_ids (twoApiWorld, keptData) s1
        ∧ AppliedAll keptData.rest_api_ids s1 s2
        ∧ resourceApiGatewayIntegrationUpdate twoApiWorld keptData = .ok (s2.1, s2.2, none) :=
  ⟨by decide, update_restores_old_then_applies_new twoApiWorld keptData (by decide)⟩

/-- C1: on the spec's two-stage scenario, apply followed by restore leaves the stage whose
access logging was originally off with access-log settings whose format and destination
are both `NO`, instead of with no access-log settings; the stage with format `X` and
destination `Y` is restored. -/
theorem restore_after_apply_sets_sentinel_access_logs :
    (do
      let r1 ← configureRestApi demoWorld demoData "abc123"
      let r2 ← deconfigureRestApi r1.1 r1.2.1 "abc123"
      pure (r2.1.apis, r2.2.rest_api_states) : Except Panic _)
      = .ok
        ([("abc123",
            [ { StageName := some "dev"
                MethodSettings :=
                  [("*/*", { DataTraceEnabled := some false, LoggingLevel := some "OFF" })]
                AccessLogSettings := some { Format := some "NO", DestinationArn := some "NO" } },
              stageProd ])], []) := by
  decide

/-- C3: destroying the resource after `abc123` was applied sends only two failing stage
listings, for the ids `abc123-dev` and `abc123-prod`, patches no stage and leaves both
entries in `rest_api_states`. -/
theorem delete_after_create_keeps_entries :
    (do
      let r1 ← resourceApiGatewayIntegrationCreate "r-1" demoWorld demoData
      let r2 ← resourceApiGatewayIntegrationDelete { r1.1 with calls := [] } r1.2.1
      pure (r2.1.calls, r2.2.1.rest_api_states) : Except Panic _)
      = .ok
        ([(ApiCall.GetStages "abc123-dev", some "NotFoundException"),
          (ApiCall.GetStages "abc123-prod", some "NotFoundException")],
          [("abc123-dev", "false!OFF!NO!NO"), ("abc123-prod", "true!ERROR!X!Y")]) := by
  decide

/-- C4, as stated, fails: a failing stage listing and failing stage patches both end in a
nil error, and the second stage is patched after the patch of the first one failed. -/
theorem configureRestApi_returns_nil_on_failures :
    ((configureRestApi demoWorld demoData "missing").map fun r => (r.1.calls, r.2.2))
        = .ok ([(ApiCall.GetCallerIdentity, none),
            (ApiCall.GetStages "missing", some "NotFoundException"),
            (ApiCall.GetStages "missing", some "NotFoundException")], (none : Option String))
      ∧ ((configureRestApi rejectingWorld demoData "abc123").map fun r =>
          (patchAttempts r.1.calls, r.2.2))
        = .ok ([("abc123", some "dev", some "BadRequestException"),
            ("abc123", some "prod", some "BadRequestException")], (none : Option String))
      ∧ ((resourceApiGatewayIntegrationCreate "r-1" rejectingWorld demoData).map fun r =>
          (patchAttempts r.1.calls, r.2.2))
        = .ok ([("abc123", some "dev", some "BadRequestException"),
            ("abc123", some "prod", some "BadRequestException")], (none : Option String)) := by
  refine ⟨?_, ?_, ?_⟩ <;> decide

/-- C6: restoring `abc123`, whose stage `dev` has no entry in an empty `rest_api_states`,
panics on the type assertion of the missing entry. -/
theorem deconfigureRestApi_panics_without_entry :
    ((deconfigureRestApi demoWorld demoData "abc123").map fun r => r.2)
      = .error Panic.typeAssertion := by
  decide

/-- C9: for the entry `false!OFF!NO!NO` that the snapshot step writes for a stage without
access-log settings, the restore patch ends with `replace` of the destination and of the
format by `NO`, not with a `remove` of `/accessLogSettings`. -/
theorem restore_patch_of_disabled_access_logging :
    (do
      let s ← saveStagesStates demoWorld demoData "abc123"
      let r ← deconfigureRestApi demoWorld { demoData with rest_api_states := s.2 } "abc123"
      pure (s.2, r.1.calls.map Prod.fst) : Except Panic _)
      = .ok
        ([("abc123-dev", "false!OFF!NO!NO"), ("abc123-prod", "true!ERROR!X!Y")],
          [ ApiCall.GetStages "abc123",
            ApiCall.UpdateStage "abc123" (some "dev")
              [ { Op := "replace", Path := "/*/*/logging/loglevel", Value := some "OFF" },
                { Op := "replace", Path := "/*/*/logging/dataTrace", Value := some "false" },
                { Op := "replace", Path := "/accessLogSettings/destinationArn",
                  Value := some "NO" },
                { Op := "replace", Path := "/accessLogSettings/format", Value := some "NO" } ],
            ApiCall.UpdateStage "abc123" (some "prod")
              [ { Op := "replace", Path := "/*/*/logging/loglevel", Value := some "ERROR" },
                { Op := "replace", Path := "/*/*/logging/dataTrace", Value := some "true" },
                { Op := "replace", Path := "/accessLogSettings/destinationArn",
                  Value := some "Y" },
                { Op := "replace", Path := "/accessLogSettings/format", Value := some "X" } ] ]) := by
  decide

/-- The cleanup theorem at the two-stage world with both snapshots stored. -/
theorem deconfigureRestApi_cleanup_witness :
    ∃ w' d', deconfigureRestApi demoWorld appliedData "abc123" = .ok (w', d')
      ∧ mapGet d'.rest_api_states ("abc123" ++ "-" ++ "dev") = none :=
  (deconfigureRestApi_cleanup demoWorld appliedData "abc123" (by decide) (by decide)).elim
    fun w' h => h.elim fun d' h => ⟨w', d', h.1, h.2.1 stageDev (by decide) "dev" rfl⟩

/-- The encoding theorem at the two-stage world. -/
theorem saveStagesStates_encoding_witness :
    ∃ w' allStates, saveStagesStates demoWorld demoData "abc123" = .ok (w', allStates)
      ∧ mapGet allStates ("abc123" ++ "-" ++ "dev")
          = some ((if false then "true" else "false") ++ "!" ++ "OFF" ++ "!" ++ "NO" ++ "!" ++ "NO")
      ∧ mapGet allStates ("abc123" ++ "-" ++ "prod")
          = some ((if true then "true" else "false") ++ "!" ++ "ERROR" ++ "!" ++ "X" ++ "!" ++ "Y") :=
  (saveStagesStates_encoding demoWorld demoData "abc123" (by decide) (by decide)).elim
    fun w' h => h.elim fun m h =>
      ⟨w', m, h.1,
        (h.2.1 stageDev (by decide) "dev" _ false "OFF" rfl rfl rfl rfl).1 rfl,
        (h.2.1 stageProd (by decide) "prod" _ true "ERROR" rfl rfl rfl rfl).2 "X" "Y" rfl⟩

/-- A text without the separator is a single piece. -/
theorem splitChars_of_not_mem (sep : Char) (a : List Char) (h : sep ∉ a) :
    splitChars sep a = [a] := by
  induction a with
  | nil => rfl
  | cons c cs ih =>
    have hc : ¬ c = sep := fun e => h (by simp [e])
    have hcs : sep ∉ cs := fun e => h (List.mem_cons_of_mem _ e)
    simp [splitChars, hc, ih hcs]

/-- The first piece of a text ends at the first separator. -/
theorem splitChars_append_sep (sep : Char) (a b : List Char) (h : sep ∉ a) :
    splitChars sep (a ++ sep :: b) = a :: splitChars sep b := by
  induction a with
  | nil => simp [splitChars]
  | cons c cs ih =>
    have hc : ¬ c = sep := fun e => h (by simp [e])
    have hcs : sep ∉ cs := fun e => h (List.mem_cons_of_mem _ e)
    simp [splitChars, hc, ih hcs]

/-- C12: for a partition, account id, role name and session name without `/` and `:`, the
assumed-role ARN `arn:P:sts::A:assumed-role/R/S` is turned into the role ARN
`arn:P:iam::A:role/R`; the ARN of the source comment yields
`arn:aws:iam::123456789012:role/role-name`. -/
theorem getIamRoleArnFromCallerRoleArn_assumed_role (P A R S : String)
    (hP : '/' ∉ P.data ∧ ':' ∉ P.data) (hA : '/' ∉ A.data ∧ ':' ∉ A.data)
    (hR : '/' ∉ R.data ∧ ':' ∉ R.data) (hS : '/' ∉ S.data ∧ ':' ∉ S.data) :
    getIamRoleArnFromCallerRoleArn
        ("arn:" ++ P ++ ":sts::" ++ A ++ ":assumed-role/" ++ R ++ "/" ++ S)
        = "arn:" ++ P ++ ":iam::" ++ A ++ ":role/" ++ R
      ∧ getIamRoleArnFromCallerRoleArn
          "arn:aws:sts::123456789012:assumed-role/role-name/role-session-name"
        = "arn:aws:iam::123456789012:role/role-name" := by
  refine ⟨?_, by decide⟩
  have hparts : Split ("arn:" ++ P ++ ":sts::" ++ A ++ ":assumed-role/" ++ R ++ "/" ++ S) '/'
      = ["arn:" ++ P ++ ":sts::" ++ A ++ ":assumed-role", R, S] := by
    have hdata : ("arn:" ++ P ++ ":sts::" ++ A ++ ":assumed-role/" ++ R ++ "/" ++ S).data
        = ("arn:" ++ P ++ ":sts::" ++ A ++ ":assumed-role").data
            ++ '/' :: (R.data ++ '/' :: S.data) := by
      simp [String.data_append]
    have hx : '/' ∉ ("arn:" ++ P ++ ":sts::" ++ A ++ ":assumed-role").data := by
      simp [String.data_append, hP.1, hA.1]
    rw [Split, hdata, splitChars_append_sep _ _ _ hx, splitChars_append_sep _ _ _ hR.1,
      splitChars_of_not_mem _ _ hS.1]
    rfl
  have harn : Split ("arn:" ++ P ++ ":sts::" ++ A ++ ":assumed-role") ':'
      = ["arn", P, "sts", "", A, "assumed-role"] := by
    have hdata : ("arn:" ++ P ++ ":sts::" ++ A ++ ":assumed-role").data
        = "arn".data ++ ':' :: (P.data ++ ':' :: ("sts".data ++ ':' :: ([] ++ ':' ::
            (A.data ++ ':' :: "assumed-role".data)))) := by
      simp [String.data_append]
    rw [Split, hdata, splitChars_append_sep _ _ _ (by decide),
      splitChars_append_sep _ _ _ hP.2, splitChars_append_sep _ _ _ (by decide),
      splitChars_append_sep _ _ _ (by simp), splitChars_append_sep _ _ _ hA.2,
      splitChars_of_not_mem _ _ (by decide)]
    rfl
  unfold getIamRoleArnFromCallerRoleArn
  simp only [hparts, List.length_cons, List.length_nil, List.getD_cons_zero, harn,
    List.getD_cons_succ, ne_eq, not_true_eq_false, if_false]
  apply String.ext
  simp [Sprintf, sprintfChars, formatString]

/-- The C12 theorem at the ARN of the source comment. -/
theorem getIamRoleArnFromCallerRoleArn_assumed_role_witness :
    getIamRoleArnFromCallerRoleArn
        ("arn:" ++ "aws" ++ ":sts::" ++ "123456789012" ++ ":assumed-role/" ++ "role-name" ++ "/"
          ++ "role-session-name")
      = "arn:" ++ "aws" ++ ":iam::" ++ "123456789012" ++ ":role/" ++ "role-name" :=
  (getIamRoleArnFromCallerRoleArn_assumed_role "aws" "123456789012" "role-name"
    "role-session-name" (by decide) (by decide) (by decide) (by decide)).1

/-- Weakening of a pairwise relation that may use membership in the right list. -/
theorem forall₂_imp_mem {α β : Type} {R S : α → β → Prop} {xs : List α} {ys : List β}
    (h : List.Forall₂ R xs ys) (himp : ∀ x y, y ∈ ys → R x y → S x y) :
    List.Forall₂ S xs ys := by
  induction h with
  | nil => exact List.Forall₂.nil
  | cons hxy _ ih =>
    exact List.Forall₂.cons (himp _ _ (List.mem_cons_self _ _) hxy)
      (ih fun x y hy => himp x y (List.mem_cons_of_mem _ hy))

/-- A snapshot string whose fields hold no `!` splits into exactly its four fields. -/
theorem Split_snapshot (st : StageState) (hl : '!' ∉ st.loggingLevel.data)
    (hf : '!' ∉ st.accessLogsFormat.data) (ha : '!' ∉ st.accessLogsDestinationArn.data) :
    Split ((if st.dataTraceEnabled then "true" else "false") ++ "!" ++ st.loggingLevel ++ "!"
        ++ st.accessLogsFormat ++ "!" ++ st.accessLogsDestinationArn) '!'
      = [if st.dataTraceEnabled then "true" else "false", st.loggingLevel,
          st.accessLogsFormat, st.accessLogsDestinationArn] := by
  have hdata : ((if st.dataTraceEnabled then "true" else "false") ++ "!" ++ st.loggingLevel
        ++ "!" ++ st.accessLogsFormat ++ "!" ++ st.accessLogsDestinationArn).data
      = (if st.dataTraceEnabled then "true" else "false").data
          ++ '!' :: (st.loggingLevel.data ++ '!' :: (st.accessLogsFormat.data
            ++ '!' :: st.accessLogsDestinationArn.data)) := by
    simp [String.data_append]
  have ht : '!' ∉ (if st.dataTraceEnabled then "true" else "false").data := by
    cases st.dataTraceEnabled <;> decide
  rw [Split, hdata, splitChars_append_sep _ _ _ ht, splitChars_append_sep _ _ _ hl,
    splitChars_append_sep _ _ _ hf, splitChars_of_not_mem _ _ ha]
  rfl

/-- C13: for populated, distinctly named stages whose logging level, access-log format and
destination contain no `!`, the snapshot loop returns and stores for every stage a string
that `Split` on `!` takes apart into exactly four fields, in order the rendered trace
flag, the logging level, the format and the destination; the restore loop run on that
map returns and sends every stage, in order, the patch made of exactly these four
original fields. And for the stage `stageBang`, whose format `a!b` contains a `!`,
`saveStagesStates` followed by `deconfigureRestApi` reads back the format `a` and the
destination `b` instead of `a!b` and `arn:x`. -/
theorem snapshot_fields_decodable (restApiId : String) (stages : List Stage) (w : World)
    (m : StateMap) (hp : ∀ s ∈ stages, s.populated = true)
    (hd : (stages.map fun s => s.StageName).Nodup)
    (hb : ∀ s ∈ stages, ∀ st, extractStageState s = .ok st →
      '!' ∉ st.loggingLevel.data ∧ '!' ∉ st.accessLogsFormat.data
        ∧ '!' ∉ st.accessLogsDestinationArn.data) :
    (∃ m' r us, saveStagesLoop restApiId stages m = .ok m'
        ∧ deconfigureLoop restApiId stages w m' = .ok r
        ∧ r.1.calls = w.calls ++ us
        ∧ (∀ s ∈ stages, ∀ n st, s.StageName = some n → extractStageState s = .ok st →
            ∃ entry, mapGet m' (restApiId ++ "-" ++ n) = some entry
              ∧ Split entry '!'
                = [if st.dataTraceEnabled then "true" else "false", st.loggingLevel,
                    st.accessLogsFormat, st.accessLogsDestinationArn])
        ∧ List.Forall₂
            (fun c s => ∃ n st, s.StageName = some n ∧ extractStageState s = .ok st
              ∧ c.1 = ApiCall.UpdateStage restApiId (some n)
                  ({ Op := "replace", Path := "/*/*/logging/loglevel",
                      Value := some st.loggingLevel }
                    :: { Op := "replace", Path := "/*/*/logging/dataTrace",
                         Value := some (if st.dataTraceEnabled then "true" else "false") }
                    :: if st.accessLogsFormat = "N0" then
                        [{ Op := "remove", Path := "/accessLogSettings", Value := none }]
                      else
                        [ { Op := "replace", Path := "/accessLogSettings/destinationArn",
                            Value := some st.accessLogsDestinationArn },
                          { Op := "replace", Path := "/accessLogSettings/format",
                            Value := some st.accessLogsFormat } ]))
            us stages)
      ∧ extractStageState stageBang = .ok ⟨true, "ERROR", "a!b", "arn:x"⟩
      ∧ (do
          let s ← saveStagesStates bangWorld demoData "abc123"
          let r ← deconfigureRestApi s.1 { demoData with rest_api_states := s.2 } "abc123"
          pure (s.2, r.1.calls.map Prod.fst) : Except Panic _)
        = .ok
          ([("abc123-live", "true!ERROR!a!b!arn:x")],
            [ ApiCall.GetStages "abc123", ApiCall.GetStages "abc123",
              ApiCall.UpdateStage "abc123" (some "live")
                [ { Op := "replace", Path := "/*/*/logging/loglevel", Value := some "ERROR" },
                  { Op := "replace", Path := "/*/*/logging/dataTrace", Value := some "true" },
                  { Op := "replace", Path := "/accessLogSettings/destinationArn",
                    Value := some "b" },
                  { Op := "replace", Path := "/accessLogSettings/format",
                    Value := some "a" } ] ]) := by
  refine ⟨?_, by decide, by decide⟩
  obtain ⟨m', hm'⟩ := saveStagesLoop_ok restApiId stages m hp
  have hentry : ∀ s ∈ stages, ∀ n st, s.StageName = some n → extractStageState s = .ok st →
      mapGet m' (restApiId ++ "-" ++ n)
          = some ((if st.dataTraceEnabled then "true" else "false") ++ "!" ++ st.loggingLevel
              ++ "!" ++ st.accessLogsFormat ++ "!" ++ st.accessLogsDestinationArn)
        ∧ Split ((if st.dataTraceEnabled then "true" else "false") ++ "!" ++ st.loggingLevel
              ++ "!" ++ st.accessLogsFormat ++ "!" ++ st.accessLogsDestinationArn) '!'
          = [if st.dataTraceEnabled then "true" else "false", st.loggingLevel,
              st.accessLogsFormat, st.accessLogsDestinationArn] := by
    intro s hs n st hn hst
    obtain ⟨hl, hf, ha⟩ := hb s hs st hst
    exact ⟨saveStagesLoop_entry restApiId stages m m' hm' hd s hs n st hn hst,
      Split_snapshot st hl hf ha⟩
  have hsnap : ∀ s ∈ stages, hasSnapshot m' restApiId s = true := by
    intro s hs
    obtain ⟨n, st, hn, hst⟩ := populated_extract s (hp s hs)
    obtain ⟨he, hsplit⟩ := hentry s hs n st hn hst
    simp [hasSnapshot, hn, he, hsplit]
  obtain ⟨r, hr⟩ := deconfigureLoop_ok restApiId stages w m' hsnap hd
  obtain ⟨us, hus, hf⟩ := deconfigureLoop_restores restApiId stages w m' r hr
  refine ⟨m', r, us, hm', hr, hus, ?_, forall₂_imp_mem hf ?_⟩
  · intro s hs n st hn hst
    exact ⟨_, hentry s hs n st hn hst⟩
  · rintro c s hs ⟨n, entry, t, l, f, a, more, hn, he, hsplit, hc⟩
    obtain ⟨n', st, hn', hst⟩ := populated_extract s (hp s hs)
    have hnn : n' = n := Option.some.inj (hn'.symm.trans hn)
    subst hnn
    obtain ⟨he', hsplit'⟩ := hentry s hs n' st hn' hst
    have hee : entry = _ := Option.some.inj (he.symm.trans he')
    subst hee
    rw [hsplit'] at hsplit
    simp only [List.cons.injEq] at hsplit
    obtain ⟨ht, hl, hf', ha, _⟩ := hsplit
    subst ht hl hf' ha
    exact ⟨n', st, hn', hst, hc⟩

/-- The decoding theorem at the two stages of the two-stage world. -/
theorem snapshot_fields_decodable_witness :
    ∃ m' r, saveStagesLoop "abc123" [stageDev, stageProd] [] = .ok m'
      ∧ deconfigureLoop "abc123" [stageDev, stageProd] demoWorld m' = .ok r
      ∧ ∃ entry, mapGet m' ("abc123" ++ "-" ++ "prod") = some entry
        ∧ Split entry '!' = [if true then "true" else "false", "ERROR", "X", "Y"] :=
  (snapshot_fields_decodable "abc123" [stageDev, stageProd] demoWorld [] (by decide) (by decide)
    (by
      intro s hs st hst
      simp only [List.mem_cons, List.mem_singleton, List.mem_nil_iff, or_false] at hs
      rcases hs with rfl | rfl
      · have e : extractStageState stageDev = .ok ⟨false, "OFF", "NO", "NO"⟩ := by decide
        rw [e] at hst
        cases hst
        decide
      · have e : extractStageState stageProd = .ok ⟨true, "ERROR", "X", "Y"⟩ := by decide
        rw [e] at hst
        cases hst
        decide)).1.elim
    fun m' h => h.elim fun r h => h.elim fun _ h =>
      ⟨m', r, h.1, h.2.1, h.2.2.2.1 stageProd (by decide) "prod" ⟨true, "ERROR", "X", "Y"⟩ rfl
        (by decide)⟩

/-- The message of the error returned for a failed `DisassociateMember`. -/
theorem Sprintf_disassociating (e : String) :
    Sprintf "error disassociating macie2 administrator account member: %s" [.str e]
      = "error disassociating macie2 administrator account member: " ++ e := by
  apply String.ext
  simp [Sprintf, sprintfChars, formatString]

/-- The message of the error returned for a fatal `DeleteMember` failure. -/
theorem Sprintf_removing (e : String) :
    Sprintf "error removing macie2 administrator account members: %s" [.str e]
      = "error removing macie2 administrator account members: " ++ e := by
  apply String.ext
  simp [Sprintf, sprintfChars, formatString]

/-- The first warning line for a failed `DeleteMember`. -/
theorem Sprintf_warn_deleting (e : String) :
    Sprintf "[WARN] Error deleting macie2 administrator account member: %s" [.str e]
      = "[WARN] Error deleting macie2 administrator account member: " ++ e := by
  apply String.ext
  simp [Sprintf, sprintfChars, formatString]

set_option maxRecDepth 8000 in
/-- The second warning line, for an account that is not associated. -/
theorem Sprintf_warn_not_associated (id : String) :
    Sprintf
        "[WARN] The specified member account (%s) isn\x27t associated with the delegated administrator account"
        [.str id]
      = "[WARN] The specified member account (" ++ id
        ++ ") isn\x27t associated with the delegated administrator account" := by
  apply String.ext
  simp [Sprintf, sprintfChars, formatString]

/-- The id slice is a copy of the account slice. -/
theorem makeMacie2AccountIDs_eq (accounts : List String) :
    makeMacie2AccountIDs accounts = accounts := by
  induction accounts with
  | nil => rfl
  | cons a rest ih => simp [makeMacie2AccountIDs, ih]

/-- The length guard of `removeMacie2OrganizationMembers` does not change its result. -/
theorem removeMacie2OrganizationMembers_eq (conn : Macie2) (accounts : List String) :
    removeMacie2OrganizationMembers conn accounts = removeMembersLoop accounts conn := by
  unfold removeMacie2OrganizationMembers
  rw [makeMacie2AccountIDs_eq]
  cases accounts with
  | nil => simp [removeMembersLoop]
  | cons a rest => simp

/-- After a prefix that ended without an error the loop carries on with the rest. -/
theorem removeMembersLoop_append (pre rest : List String) :
    ∀ conn : Macie2, (removeMembersLoop pre conn).2 = none →
      removeMembersLoop (pre ++ rest) conn
        = removeMembersLoop rest (removeMembersLoop pre conn).1 := by
  induction pre with
  | nil => intro conn _; rfl
  | cons id pre ih =>
    intro conn h
    simp only [List.cons_append, removeMembersLoop, DisassociateMember, DeleteMember] at h ⊢
    cases h1 : conn.respond conn.calls (MacieCall.DisassociateMember id) with
    | some e => simp [h1] at h
    | none =>
      simp only [h1] at h ⊢
      cases h2 : conn.respond (conn.calls ++ [MacieCall.DisassociateMember id])
          (MacieCall.DeleteMember id) with
      | none =>
        simp only [h2] at h ⊢
        exact ih _ h
      | some e =>
        simp only [h2] at h ⊢
        by_cases hc : Contains e "specified account is not associated with your account" = true
        · simp only [hc, if_true] at h ⊢
          exact ih _ h
        · simp [hc] at h

/-- C11 (amended): at any position of the member list reached without an error, (1) an error of
`DisassociateMember`, whatever its message, is returned at once, after that single
request; (2) an error of `DeleteMember` whose message says that the specified account is
not associated is logged as two warnings and the loop goes on with the remaining accounts
exactly as if the deletion had succeeded, returning success when no account remains;
(3) any other error of `DeleteMember` is returned at once, after the two requests for that
account. -/
theorem removeMacie2OrganizationMembers_error_policy (conn : Macie2) (pre : List String)
    (id : String) (post : List String)
    (hpre : (removeMacie2OrganizationMembers conn pre).2 = none) :
    (∀ e, (removeMacie2OrganizationMembers conn pre).1.respond
          (removeMacie2OrganizationMembers conn pre).1.calls (MacieCall.DisassociateMember id)
          = some e →
        (removeMacie2OrganizationMembers conn (pre ++ id :: post)).2
            = some ("error disassociating macie2 administrator account member: " ++ e)
          ∧ (removeMacie2OrganizationMembers conn (pre ++ id :: post)).1.calls
            = (removeMacie2OrganizationMembers conn pre).1.calls
              ++ [MacieCall.DisassociateMember id])
      ∧ ((removeMacie2OrganizationMembers conn pre).1.respond
            (removeMacie2OrganizationMembers conn pre).1.calls (MacieCall.DisassociateMember id)
            = none →
          ∀ e, (removeMacie2OrganizationMembers conn pre).1.respond
              ((removeMacie2OrganizationMembers conn pre).1.calls
                ++ [MacieCall.DisassociateMember id]) (MacieCall.DeleteMember id) = some e →
            (Contains e "specified account is not associated with your account" = true →
              removeMacie2OrganizationMembers conn (pre ++ id :: post)
                  = removeMacie2OrganizationMembers
                      { (removeMacie2OrganizationMembers conn pre).1 with
                        calls := (removeMacie2OrganizationMembers conn pre).1.calls
                          ++ [MacieCall.DisassociateMember id, MacieCall.DeleteMember id]
                        logs := (removeMacie2OrganizationMembers conn pre).1.logs
                          ++ ["[WARN] Error deleting macie2 administrator account member: " ++ e,
                            "[WARN] The specified member account (" ++ id
                              ++ ") isn\x27t associated with the delegated administrator account"] }
                      post
                ∧ (post = [] →
                  (removeMacie2OrganizationMembers conn (pre ++ id :: post)).2 = none))
            ∧ (Contains e "specified account is not associated with your account" = false →
              (removeMacie2OrganizationMembers conn (pre ++ id :: post)).2
                  = some ("error removing macie2 administrator account members: " ++ e)
                ∧ (removeMacie2OrganizationMembers conn (pre ++ id :: post)).1.calls
                  = (removeMacie2OrganizationMembers conn pre).1.calls
                    ++ [MacieCall.DisassociateMember id, MacieCall.DeleteMember id])) := by
  simp only [removeMacie2OrganizationMembers_eq] at hpre ⊢
  rw [removeMembersLoop_append pre (id :: post) conn hpre]
  generalize (removeMembersLoop pre conn).1 = c
  refine ⟨?_, ?_⟩
  · intro e h1
    simp [removeMembersLoop, DisassociateMember, h1, Sprintf_disassociating]
  · intro h1 e h2
    refine ⟨?_, ?_⟩
    · intro hc
      have hstep : removeMembersLoop (id :: post) c
          = removeMembersLoop post
              { c with
                calls := c.calls ++ [MacieCall.DisassociateMember id, MacieCall.DeleteMember id]
                logs := c.logs
                  ++ ["[WARN] Error deleting macie2 administrator account member: " ++ e,
                    "[WARN] The specified member account (" ++ id
                      ++ ") isn\x27t associated with the delegated administrator account"] } := by
        simp [removeMembersLoop, DisassociateMember, DeleteMember, logPrintf, h1, h2, hc, Sprintf_warn_deleting,
          Sprintf_warn_not_associated]
      refine ⟨hstep, ?_⟩
      intro hpost
      rw [hstep, hpost]
      rfl
    · intro hc
      simp [removeMembersLoop, DisassociateMember, DeleteMember, logPrintf, h1, h2, hc,
        Sprintf_removing]

set_option maxRecDepth 100000 in
/-- C11, as stated, fails: an error of `DisassociateMember` whose message says that the
specified account is not associated is returned at once; the deletion of that account is
not attempted and the remaining account `444` is not processed. -/
theorem removeMacie2OrganizationMembers_disassociate_fatal :
    Contains "ValidationException: The specified account is not associated with your account."
        "specified account is not associated with your account" = true
      ∧ (removeMacie2OrganizationMembers strictMacie ["111", "222", "444"]).2
        = some "error disassociating macie2 administrator account member: ValidationException: The specified account is not associated with your account."
      ∧ (removeMacie2OrganizationMembers strictMacie ["111", "222", "444"]).1.calls
        = [MacieCall.DisassociateMember "111", MacieCall.DeleteMember "111",
            MacieCall.DisassociateMember "222"] := by
  refine ⟨?_, ?_, ?_⟩ <;> decide

/-- The C11 theorem at a list whose second account is not associated. -/
theorem removeMacie2OrganizationMembers_error_policy_witness :
    (removeMacie2OrganizationMembers demoMacie ["111"]).2 = none
      ∧ (removeMacie2OrganizationMembers demoMacie (["111"] ++ "222" :: [])).2 = none :=
  ⟨by decide,
    (((removeMacie2OrganizationMembers_error_policy demoMacie ["111"] "222" [] (by decide)).2
      (by decide)
      "ValidationException: The specified account is not associated with your account."
      (by decide)).1 (by decide)).2 rfl⟩

end ApiGatewayIntegration
